import Mathlib

/-! # Runtime telemetry pipeline of the container backend

A shallow embedding of the statistics sampler (`calculateCPUPercent`,
`GetContainerStats` in `internal/docker/client.go`), the log demultiplexer
(`GetContainerLogs`, same file) and the metrics aggregator
(`internal/handlers/metrics.go`), followed by theorems about them.

Conventions of the embedding:

* a Go `string` that the code slices or scans bytewise is the list of its
  bytes (`Str`), a byte being a natural number; a string that is only copied or
  compared is a Lean `String`;
* `uint64` values are natural numbers below `2 ^ 64`, arithmetic on them is
  written with an explicit `% 2 ^ 64`;
* `float64` is the type `F64`: finite values are carried as exact rationals
  (rounding to 53 bits is not modelled), the two infinities and not-a-number
  are separate values and arise exactly as IEEE 754 prescribes for a division
  by zero;
* calls into the container runtime and the clock are inputs of the functions.
-/

namespace Doker

/-- A Go string as the list of its bytes. -/
abbrev Str := List Nat

/-- The bytes of an ASCII literal. -/
def lit (s : String) : Str := s.toList.map Char.toNat

/-! ## Numbers -/

/-- Values of a Go `float64`: a finite number (kept exact), an infinity, or
not-a-number. -/
inductive F64 where
  | fin (q : ℚ)
  | posInf
  | negInf
  | nan
  deriving DecidableEq

namespace F64

/-- Conversion `float64(n)` of an unsigned integer. -/
def ofNat (n : Nat) : F64 := fin (n : ℚ)

/-- The constant `0`. -/
def zero : F64 := fin 0

/-- Comparison `a > b`; every comparison with not-a-number is false. -/
def gt : F64 → F64 → Bool
  | fin a, fin b => decide (b < a)
  | posInf, fin _ => true
  | posInf, negInf => true
  | fin _, negInf => true
  | _, _ => false

/-- Quotient `a / b`. A finite number divided by zero is an infinity of the
sign of the dividend, and `0 / 0` is not-a-number. -/
def div : F64 → F64 → F64
  | fin a, fin b =>
    if b = 0 then (if a = 0 then nan else if 0 < a then posInf else negInf)
    else fin (a / b)
  | nan, _ => nan
  | _, nan => nan
  | fin _, posInf => fin 0
  | fin _, negInf => fin 0
  | posInf, fin b => if 0 ≤ b then posInf else negInf
  | negInf, fin b => if 0 ≤ b then negInf else posInf
  | _, _ => nan

/-- Product `a * b`. An infinity times zero is not-a-number. -/
def mul : F64 → F64 → F64
  | fin a, fin b => fin (a * b)
  | nan, _ => nan
  | _, nan => nan
  | posInf, fin b => if b = 0 then nan else if 0 < b then posInf else negInf
  | negInf, fin b => if b = 0 then nan else if 0 < b then negInf else posInf
  | fin a, posInf => if a = 0 then nan else if 0 < a then posInf else negInf
  | fin a, negInf => if a = 0 then nan else if 0 < a then negInf else posInf
  | posInf, posInf => posInf
  | negInf, negInf => posInf
  | posInf, negInf => negInf
  | negInf, posInf => negInf

/-- A finite value: neither an infinity nor not-a-number. -/
def isFinite : F64 → Bool
  | fin _ => true
  | _ => false

end F64

/-- Difference `a - b` of two `uint64` values: it wraps around modulo `2 ^ 64`. -/
def sub64 (a b : Nat) : Nat := (a + 2 ^ 64 - b) % 2 ^ 64

/-- Sum `a + b` of two `uint64` values: it wraps around modulo `2 ^ 64`. -/
def add64 (a b : Nat) : Nat := (a + b) % 2 ^ 64

/-- Conversion `int64(n)` of a `uint64`: the same 64 bits read in two's
complement. -/
def toInt64 (n : Nat) : Int :=
  if n % 2 ^ 64 < 2 ^ 63 then ((n % 2 ^ 64 : Nat) : Int) else ((n % 2 ^ 64 : Nat) : Int) - 2 ^ 64

/-! ## The raw statistics snapshot (`types.StatsJSON` of the runtime library)

Only the fields read by `GetContainerStats` are kept. -/

/-- CPU counters: `TotalUsage` and the per-CPU list `PercpuUsage`. -/
structure CPUUsageRaw where
  TotalUsage : Nat
  PercpuUsage : List Nat

/-- One CPU reading (`CPUStats` and `PreCPUStats` have this shape). -/
structure CPUStats where
  CPUUsage : CPUUsageRaw
  SystemUsage : Nat

/-- Memory counters of the snapshot. -/
structure MemoryStats where
  Usage : Nat
  Limit : Nat

/-- Counters of one network interface. -/
structure NetworkStats where
  RxBytes : Nat
  TxBytes : Nat
  RxPackets : Nat
  TxPackets : Nat

/-- One block-IO entry: operation tag and value. -/
structure BlkioStatEntry where
  Op : String
  Value : Nat

/-- Block-IO section of the snapshot. -/
structure BlkioStats where
  IoServiceBytesRecursive : List BlkioStatEntry

/-- The snapshot: the current and the previous CPU reading, memory, the
network interfaces (a Go map, listed here in the order the loop visits them)
and block IO. -/
structure StatsJSON where
  CPUStats : Doker.CPUStats
  PreCPUStats : Doker.CPUStats
  MemoryStats : Doker.MemoryStats
  Networks : List (String × NetworkStats)
  BlkioStats : Doker.BlkioStats

/-- Every counter of the snapshot is a `uint64`. -/
def StatsJSON.WF (s : StatsJSON) : Prop :=
  s.CPUStats.CPUUsage.TotalUsage < 2 ^ 64 ∧ s.CPUStats.SystemUsage < 2 ^ 64 ∧
  s.PreCPUStats.CPUUsage.TotalUsage < 2 ^ 64 ∧ s.PreCPUStats.SystemUsage < 2 ^ 64 ∧
  s.MemoryStats.Usage < 2 ^ 64 ∧ s.MemoryStats.Limit < 2 ^ 64

/-! ## Derived statistics (`pkg/models/container.go`) -/

/-- Model of `models.Memory`. -/
structure Memory where
  Usage : Nat
  Limit : Nat
  Percent : F64

/-- Model of `models.Network`. -/
structure Network where
  RxBytes : Nat
  TxBytes : Nat
  RxPackets : Nat
  TxPackets : Nat

/-- Model of `models.BlockIO`. -/
structure BlockIo where
  ReadBytes : Nat
  WriteBytes : Nat

/-- Model of `models.ContainerStats`; `Time` is the sample time in Unix
seconds (the only reading of it the code takes). -/
structure ContainerStats where
  ID : String
  Name : String
  CPUUsage : F64
  Memory : Doker.Memory
  Network : Doker.Network
  BlockIo : Doker.BlockIo
  Time : Int

/-- The function `calculateCPUPercent` (client.go 233-241). Both deltas are
`uint64` differences converted to `float64`. -/
def calculateCPUPercent (stats : StatsJSON) : F64 :=
  let cpuDelta := F64.ofNat
    (sub64 stats.CPUStats.CPUUsage.TotalUsage stats.PreCPUStats.CPUUsage.TotalUsage)
  let systemDelta := F64.ofNat
    (sub64 stats.CPUStats.SystemUsage stats.PreCPUStats.SystemUsage)
  if F64.gt systemDelta F64.zero && F64.gt cpuDelta F64.zero then
    F64.mul
      (F64.mul (F64.div cpuDelta systemDelta)
        (F64.ofNat stats.CPUStats.CPUUsage.PercpuUsage.length))
      (F64.ofNat 100)
  else
    F64.zero

/-- The loop over `dockerStats.Networks` (client.go 194-200): the four running
totals `rxBytes, txBytes, rxPackets, txPackets`. -/
def sumNetworks (nets : List (String × NetworkStats)) : Network :=
  nets.foldl
    (fun acc kv =>
      { RxBytes := add64 acc.RxBytes kv.2.RxBytes
        TxBytes := add64 acc.TxBytes kv.2.TxBytes
        RxPackets := add64 acc.RxPackets kv.2.RxPackets
        TxPackets := add64 acc.TxPackets kv.2.TxPackets })
    { RxBytes := 0, TxBytes := 0, RxPackets := 0, TxPackets := 0 }

/-- The loop over `IoServiceBytesRecursive` (client.go 202-209). -/
def sumBlkio (entries : List BlkioStatEntry) : BlockIo :=
  entries.foldl
    (fun acc blkio =>
      if blkio.Op = "Read" then { acc with ReadBytes := add64 acc.ReadBytes blkio.Value }
      else if blkio.Op = "Write" then
        { acc with WriteBytes := add64 acc.WriteBytes blkio.Value }
      else acc)
    { ReadBytes := 0, WriteBytes := 0 }

/-- The method `GetContainerStats` (client.go 177-231). `resp` is the outcome
of the runtime call together with the decoding of its body: an error, or the
decoded snapshot. `now` is the clock reading taken for the `Time` field. -/
def GetContainerStats (now : Int) (containerID : String)
    (resp : Except String StatsJSON) : Except String ContainerStats :=
  match resp with
  | .error e => .error e
  | .ok dockerStats =>
    let cpuUsage := calculateCPUPercent dockerStats
    let memoryUsage := dockerStats.MemoryStats.Usage
    let memoryLimit := dockerStats.MemoryStats.Limit
    let memoryPercent :=
      F64.mul (F64.div (F64.ofNat memoryUsage) (F64.ofNat memoryLimit)) (F64.ofNat 100)
    .ok
      { ID := containerID
        Name := ""
        CPUUsage := cpuUsage
        Memory := { Usage := memoryUsage, Limit := memoryLimit, Percent := memoryPercent }
        Network := sumNetworks dockerStats.Networks
        BlockIo := sumBlkio dockerStats.BlkioStats.IoServiceBytesRecursive
        Time := now }

/-! ## The metrics aggregator (`internal/handlers/metrics.go`) -/

/-- Model of `models.Container`, without the port, label and mount
collections, which the aggregator never reads. -/
structure Container where
  ID : String
  Names : List Str
  Image : String
  ImageID : String
  Command : String
  Created : Int
  State : String
  Status : String

/-- The record `ContainerMetrics` (metrics.go 32-44). -/
structure ContainerMetrics where
  ContainerID : String
  ContainerName : Str
  Image : String
  State : String
  CPUUsage : F64
  MemoryUsage : Int
  MemoryPercent : F64
  NetworkRx : Int
  NetworkTx : Int
  DiskUsage : Int
  Timestamp : Int
  deriving DecidableEq

/-- The record `OverallMetrics` (metrics.go 46-55). -/
structure OverallMetrics where
  TotalContainers : Nat
  RunningContainers : Nat
  StoppedContainers : Nat
  PausedContainers : Nat
  SystemCPU : F64
  SystemMemory : Int
  SystemMemoryUsed : Int
  Containers : List ContainerMetrics

/-- The function `getContainerName` (metrics.go 214-223). -/
def getContainerName (names : List Str) : Str :=
  match names with
  | [] => lit "Unknown"
  | name :: _ =>
    match name with
    | 47 :: rest => rest
    | _ => name

/-- The method `buildContainerMetricsFromStats` (metrics.go 196-212). -/
def buildContainerMetricsFromStats (container : Container) (stats : ContainerStats) :
    ContainerMetrics :=
  let containerName := getContainerName container.Names
  { ContainerID := container.ID
    ContainerName := containerName
    Image := container.Image
    State := container.State
    CPUUsage := stats.CPUUsage
    MemoryUsage := toInt64 stats.Memory.Usage
    MemoryPercent := stats.Memory.Percent
    NetworkRx := toInt64 stats.Network.RxBytes
    NetworkTx := toInt64 stats.Network.TxBytes
    DiskUsage := toInt64 (add64 stats.BlockIo.ReadBytes stats.BlockIo.WriteBytes)
    Timestamp := stats.Time }

/-- What the outside world answers while one container is processed: the
outcome of the runtime's stats call (with the decoding of its body) for each
container id, and the reading of the clock. Each path through
`buildContainerMetrics` reads the clock exactly once. -/
structure Runtime where
  ContainerStats : String → Except String StatsJSON
  now : Int

/-- The method `buildContainerMetrics` (metrics.go 157-194); the stats probe
is the method `GetContainerStats` of the same client. -/
def buildContainerMetrics (rt : Runtime) (container : Container) : ContainerMetrics :=
  let containerName := getContainerName container.Names
  if container.State ≠ "running" then
    { ContainerID := container.ID
      ContainerName := containerName
      Image := container.Image
      State := container.State
      CPUUsage := F64.zero
      MemoryUsage := 0
      MemoryPercent := F64.zero
      NetworkRx := 0
      NetworkTx := 0
      DiskUsage := 0
      Timestamp := rt.now }
  else
    match GetContainerStats rt.now container.ID (rt.ContainerStats container.ID) with
    | .error _ =>
      { ContainerID := container.ID
        ContainerName := containerName
        Image := container.Image
        State := container.State
        CPUUsage := F64.zero
        MemoryUsage := 0
        MemoryPercent := F64.zero
        NetworkRx := 0
        NetworkTx := 0
        DiskUsage := 0
        Timestamp := rt.now }
    | .ok stats => buildContainerMetricsFromStats container stats

/-- The loop of `GetOverallMetrics` (metrics.go 72-75), started at the
container of index `i` with the counters and the records gathered so far;
`rt k` is the outside world while the container of index `k` is processed. -/
def metricsLoop (rt : Nat → Runtime) :
    Nat → List Container → (String → Nat) × List ContainerMetrics →
      (String → Nat) × List ContainerMetrics
  | _, [], acc => acc
  | i, container :: rest, (counters, containerMetrics) =>
    metricsLoop rt (i + 1) rest
      (fun k => if k = container.State then counters k + 1 else counters k,
        containerMetrics ++ [buildContainerMetrics (rt i) container])

/-- What a handler sends back: a status code with a metrics body, a status
code with an error text, or a status code and no body because the body could
not be encoded. -/
inductive MetricsReply where
  | json (status : Nat) (body : OverallMetrics)
  | failure (status : Nat) (error : String)
  | unencoded (status : Nat)

/-- A record can be encoded as JSON: its two `float64` fields are finite. -/
def ContainerMetrics.encodable (r : ContainerMetrics) : Bool :=
  r.CPUUsage.isFinite && r.MemoryPercent.isFinite

/-- A metrics body can be encoded as JSON: `encoding/json` rejects an infinity
and not-a-number, wherever in the value it stands. -/
def OverallMetrics.encodable (m : OverallMetrics) : Bool :=
  m.SystemCPU.isFinite && m.Containers.all ContainerMetrics.encodable

/-- Model of the call `c.JSON(status, body)` of the web framework for a metrics
body: the body is encoded and sent; when the encoder rejects it, the status
stands and no body is sent. -/
def cJSON (status : Nat) (body : OverallMetrics) : MetricsReply :=
  if body.encodable then .json status body else .unencoded status

/-- The handler `GetOverallMetrics` (metrics.go 61-92). `listing` is the outcome
of `ListContainers`, `sys` and `alloc` are the two fields read from
`runtime.MemStats`. -/
def GetOverallMetrics (listing : Except String (List Container)) (rt : Nat → Runtime)
    (sys alloc : Nat) : MetricsReply :=
  match listing with
  | .error _ => .failure 500 "Failed to fetch containers"
  | .ok containers =>
    let acc := metricsLoop rt 0 containers (fun _ => 0, [])
    cJSON 200
      { TotalContainers := containers.length
        RunningContainers := acc.1 "running"
        StoppedContainers := acc.1 "exited"
        PausedContainers := acc.1 "paused"
        SystemCPU := F64.zero
        SystemMemory := toInt64 sys
        SystemMemoryUsed := toInt64 alloc
        Containers := acc.2 }

/-! ## Library functions used by the log demultiplexer

`strings.TrimSpace`, `strings.Split`, `strings.SplitN` and `time.Parse` belong
to the Go standard library. They are modelled here on bytes. -/

/-- A white-space character of one byte: tab, line feed, vertical tab, form
feed, carriage return, space. -/
def isSpace1 (a : Nat) : Bool :=
  a = 9 || a = 10 || a = 11 || a = 12 || a = 13 || a = 32

/-- A white-space character encoded on two bytes: U+0085 and U+00A0. -/
def isSpace2 (a b : Nat) : Bool :=
  a = 0xC2 && (b = 0x85 || b = 0xA0)

/-- A white-space character encoded on three bytes: U+1680, U+2000 to U+200A,
U+2028, U+2029, U+202F, U+205F and U+3000. -/
def isSpace3 (a b c : Nat) : Bool :=
  (a = 0xE1 && b = 0x9A && c = 0x80) ||
  (a = 0xE2 && b = 0x80 && ((0x80 ≤ c && c ≤ 0x8A) || c = 0xA8 || c = 0xA9 || c = 0xAF)) ||
  (a = 0xE2 && b = 0x81 && c = 0x9F) ||
  (a = 0xE3 && b = 0x80 && c = 0x80)

/-- Width in bytes of the white-space character a string starts with, `0`
when it starts with none. -/
def leadingSpace : Str → Nat
  | [] => 0
  | a :: t =>
    if isSpace1 a then 1
    else match t with
      | [] => 0
      | b :: t2 =>
        if isSpace2 a b then 2
        else match t2 with
          | [] => 0
          | c :: _ => if isSpace3 a b c then 3 else 0

/-- Width in bytes of the white-space character that ends a string given in
reverse (last byte first), `0` when it ends with none. -/
def leadingSpaceRev : Str → Nat
  | [] => 0
  | a :: t =>
    if isSpace1 a then 1
    else match t with
      | [] => 0
      | b :: t2 =>
        if isSpace2 b a then 2
        else match t2 with
          | [] => 0
          | c :: _ => if isSpace3 c b a then 3 else 0

/-- Width in bytes of the white-space character a string ends with. -/
def trailingSpace (s : Str) : Nat := leadingSpaceRev s.reverse

/-- Removal of the leading white-space characters. -/
def trimLeft : Str → Str
  | [] => []
  | a :: t =>
    if isSpace1 a then trimLeft t
    else match t with
      | [] => [a]
      | b :: t2 =>
        if isSpace2 a b then trimLeft t2
        else match t2 with
          | [] => [a, b]
          | c :: t3 => if isSpace3 a b c then trimLeft t3 else a :: b :: c :: t3

/-- Removal of the trailing white-space characters of a string given in
reverse. -/
def trimRev : Str → Str
  | [] => []
  | a :: t =>
    if isSpace1 a then trimRev t
    else match t with
      | [] => [a]
      | b :: t2 =>
        if isSpace2 b a then trimRev t2
        else match t2 with
          | [] => [a, b]
          | c :: t3 => if isSpace3 c b a then trimRev t3 else a :: b :: c :: t3

/-- Removal of the trailing white-space characters. -/
def trimRight (s : Str) : Str := (trimRev s.reverse).reverse

/-- Model of `strings.TrimSpace`: leading, then trailing white space removed. -/
def TrimSpace (s : Str) : Str := trimRight (trimLeft s)

/-- A string made of white-space characters only (the empty string included). -/
inductive AllSpace : Str → Prop
  | nil : AllSpace []
  | one (a : Nat) (t : Str) : isSpace1 a = true → AllSpace t → AllSpace (a :: t)
  | two (a b : Nat) (t : Str) : isSpace2 a b = true → AllSpace t → AllSpace (a :: b :: t)
  | three (a b c : Nat) (t : Str) :
      isSpace3 a b c = true → AllSpace t → AllSpace (a :: b :: c :: t)

/-- Model of `strings.Split(s, "\n")`: the pieces between line feeds; there is
always at least one piece. -/
def Split : Str → List Str
  | [] => [[]]
  | b :: bs =>
    if b = 10 then [] :: Split bs
    else match Split bs with
      | [] => [[b]]
      | l :: ls => (b :: l) :: ls

/-- The part before and the part after the first space of a string, when it
has a space. -/
def cutSpace : Str → Option (Str × Str)
  | [] => none
  | b :: bs =>
    if b = 32 then some ([], bs)
    else match cutSpace bs with
      | none => none
      | some (before, after) => some (b :: before, after)

/-- Model of `strings.SplitN(s, " ", 2)`: two pieces when there is a space,
the string itself as the only piece otherwise. -/
def SplitN2 (s : Str) : List Str :=
  match cutSpace s with
  | none => [s]
  | some (before, after) => [before, after]

/-- A parsed time: the calendar fields written in the text and the offset of
its zone from UTC in seconds. -/
structure Instant where
  year : Nat
  month : Nat
  day : Nat
  hour : Nat
  minute : Nat
  second : Nat
  nanosecond : Nat
  offset : Int
  deriving DecidableEq

/-- The two layouts the demultiplexer passes to `time.Parse`. -/
inductive Layout where
  | RFC3339Nano
  | RFC3339
  deriving DecidableEq

/-- An ASCII digit. -/
def isDigit (b : Nat) : Bool := 48 ≤ b && b ≤ 57

/-- Value of an ASCII digit. -/
def digitVal (b : Nat) : Nat := b - 48

/-- Value of two ASCII digits. -/
def num2 (a b : Nat) : Nat := 10 * digitVal a + digitVal b

/-- Number of days of a month of the Gregorian calendar. -/
def daysIn (month year : Nat) : Nat :=
  if month = 2 then
    (if year % 4 = 0 ∧ (year % 100 ≠ 0 ∨ year % 400 = 0) then 29 else 28)
  else if month = 4 ∨ month = 6 ∨ month = 9 ∨ month = 11 then 30
  else 31

/-- The fraction of a second: a period or a comma followed by digits, of which
the first nine count; it may be absent. Returns the nanoseconds and the rest
of the text. -/
def parseFraction (value : Str) : Nat × Str :=
  match value with
  | sep :: d :: rest =>
    if (sep = 46 || sep = 44) && isDigit d then
      let digits := (d :: rest).takeWhile isDigit
      let kept := digits.take 9
      (kept.foldl (fun n c => 10 * n + digitVal c) 0 * 10 ^ (9 - kept.length),
        (d :: rest).dropWhile isDigit)
    else (0, value)
  | _ => (0, value)

/-- The zone at the end of the text: `Z`, or a sign, two digits, a colon and
two digits; nothing may follow. Returns the offset in seconds. -/
def parseZone (value : Str) : Option Int :=
  match value with
  | [z] => if z = 90 then some 0 else none
  | [sign, h1, h2, colon, m1, m2] =>
    if isDigit h1 && isDigit h2 && colon = 58 && isDigit m1 && isDigit m2 &&
        num2 h1 h2 ≤ 24 && num2 m1 m2 ≤ 60 then
      (if sign = 43 then some (((num2 h1 h2 * 60 + num2 m1 m2) * 60 : Nat) : Int)
       else if sign = 45 then some (-(((num2 h1 h2 * 60 + num2 m1 m2) * 60 : Nat) : Int))
       else none)
    else none
  | _ => none

/-- Model of `time.Parse(layout, value)` for the layouts `time.RFC3339Nano` and
`time.RFC3339`; `none` stands for an error. The text is a four-digit year, a
two-digit month and day, `T`, an hour of one or two digits, two-digit minute
and second, an optional fraction, and a zone. The library accepts a fraction
under both layouts, so the layout does not change the outcome. -/
def timeParse (_layout : Layout) (value : Str) : Option Instant :=
  match value with
  | y1 :: y2 :: y3 :: y4 :: c1 :: m1 :: m2 :: c2 :: d1 :: d2 :: c3 :: h1 :: rest =>
    if isDigit y1 && isDigit y2 && isDigit y3 && isDigit y4 && c1 = 45 &&
        isDigit m1 && isDigit m2 && c2 = 45 && isDigit d1 && isDigit d2 && c3 = 84 &&
        isDigit h1 then
      let hourRest : Nat × Str :=
        match rest with
        | [] => (digitVal h1, [])
        | h2 :: r => if isDigit h2 then (num2 h1 h2, r) else (digitVal h1, h2 :: r)
      match hourRest.2 with
      | c4 :: n1 :: n2 :: c5 :: s1 :: s2 :: rest2 =>
        if c4 = 58 && isDigit n1 && isDigit n2 && c5 = 58 && isDigit s1 && isDigit s2 then
          let year := 1000 * digitVal y1 + 100 * digitVal y2 + 10 * digitVal y3 + digitVal y4
          let month := num2 m1 m2
          let day := num2 d1 d2
          let frac := parseFraction rest2
          match parseZone frac.2 with
          | none => none
          | some offset =>
            if 1 ≤ month && month ≤ 12 && 1 ≤ day && day ≤ daysIn month year &&
                hourRest.1 < 24 && num2 n1 n2 < 60 && num2 s1 s2 < 60 then
              some
                { year := year, month := month, day := day, hour := hourRest.1
                  minute := num2 n1 n2, second := num2 s1 s2
                  nanosecond := frac.1, offset := offset }
            else none
        else none
      | _ => none
    else none
  | _ => none

/-! ## The log demultiplexer (`GetContainerLogs`, client.go 100-175) -/

/-- The time of a log entry: a time parsed from the line, or the reading of
the clock (`time.Now()`) taken while the line is processed. -/
inductive LogTime where
  | parsed (t : Instant)
  | wallClock
  deriving DecidableEq

/-- Model of `models.LogEntry`. -/
structure LogEntry where
  Timestamp : LogTime
  Message : Str
  Stream : String
  deriving DecidableEq

/-- Lines 127-143 of the loop body: the stream tag and the message of a line,
by its length and first byte. -/
def splitHeader (line : Str) : String × Str :=
  if line.length ≥ 8 then
    ((match line.head? with
      | some 1 => "stdout"
      | some 2 => "stderr"
      | _ => "stdout"),
     line.drop 8)
  else
    ("stdout", line)

/-- Lines 145-163 of the loop body: the time of the entry and the message left
after a leading timestamp, if one was parsed, is removed. `parse` stands for
`time.Parse`. -/
def extractTimestamp (parse : Layout → Str → Option Instant) (message : Str) :
    LogTime × Str :=
  if 84 ∈ message ∧ (90 ∈ message ∨ 43 ∈ message) then
    match SplitN2 message with
    | [part0, part1] =>
      match parse Layout.RFC3339Nano part0 with
      | some parsedTime => (LogTime.parsed parsedTime, part1)
      | none =>
        match parse Layout.RFC3339 part0 with
        | some parsedTime => (LogTime.parsed parsedTime, part1)
        | none => (LogTime.wallClock, message)
    | _ => (LogTime.wallClock, message)
  else
    (LogTime.wallClock, message)

/-- The body of the loop over the lines (client.go 122-172) for one line: the
entry it appends, if any. -/
def processLine (parse : Layout → Str → Option Instant) (line : Str) : Option LogEntry :=
  if line.length = 0 then none
  else
    let header := splitHeader line
    let stamped := extractTimestamp parse header.2
    if TrimSpace stamped.2 ≠ [] then
      some { Timestamp := stamped.1, Message := TrimSpace stamped.2, Stream := header.1 }
    else none

/-- The loop over the lines (client.go 122-172): `logEntries` grows by one
entry for each line that yields one. -/
def logLoop (parse : Layout → Str → Option Instant) :
    List Str → List LogEntry → List LogEntry
  | [], logEntries => logEntries
  | line :: rest, logEntries =>
    match processLine parse line with
    | none => logLoop parse rest logEntries
    | some entry => logLoop parse rest (logEntries ++ [entry])

/-- The method `GetContainerLogs` (client.go 100-175). `content` is the outcome
of the runtime call and of reading its stream to the end: an error, or the
bytes read. -/
def GetContainerLogs (parse : Layout → Str → Option Instant)
    (content : Except String Str) : Except String (List LogEntry) :=
  match content with
  | .error e => .error e
  | .ok bytes => .ok (logLoop parse (Split bytes) [])

/-! ## The audit trail and the mutating handlers

`internal/database/turso.go`, `internal/handlers/container.go` and
`internal/handlers/image.go`. The table `container_logs` is the list of its
rows, oldest first; the columns the database fills in itself (id, timestamp)
are left out. A Go `error` is the text `err.Error()` gives, `none` stands for
`nil`. -/

/-- A row of `container_logs` as `LogContainerAction` writes it. -/
structure AuditLogRecord where
  ContainerID : String
  ContainerName : Str
  Action : String
  UserInfo : String
  Details : String
  deriving DecidableEq

/-- The method `LogContainerAction` (turso.go 97-105): the insert adds one
row. -/
def LogContainerAction (db : List AuditLogRecord) (containerID : String)
    (containerName : Str) (action userInfo details : String) : List AuditLogRecord :=
  db ++
    [{ ContainerID := containerID, ContainerName := containerName, Action := action
       UserInfo := userInfo, Details := details }]

/-- The reply of a mutating handler: status code, and the key (`message` or
`error`) and text of its JSON body. -/
structure ActionReply where
  status : Nat
  key : String
  text : String
  deriving DecidableEq

/-- The loop each container handler runs first (container.go 76-85, 100-109,
124-133, 149-158): the first name of the first listed container with the
given id, `unknown` when there is none. -/
def findContainerName (containers : List Container) (containerID : String) : Str :=
  match containers with
  | [] => lit "unknown"
  | container :: rest =>
    if container.ID = containerID then
      (match container.Names with
        | [] => lit "unknown"
        | name :: _ => name)
    else findContainerName rest containerID

/-- The containers a handler gets from `ListContainers` when it drops the
error: none on failure. -/
def listedOrNone (listing : Except String (List Container)) : List Container :=
  match listing with
  | .ok containers => containers
  | .error _ => []

/-- The handler `StartContainer` (container.go 73-95). `listing` is the outcome
of `ListContainers`, `err` that of the runtime's start call. -/
def StartContainer (db : List AuditLogRecord) (containerID : String)
    (listing : Except String (List Container)) (err : Option String) :
    List AuditLogRecord × ActionReply :=
  let containerName := findContainerName (listedOrNone listing) containerID
  match err with
  | some e =>
    (LogContainerAction db containerID containerName "start_failed" "docker-gui" e,
      { status := 500, key := "error", text := e })
  | none =>
    (LogContainerAction db containerID containerName "start" "docker-gui"
        "Container started successfully",
      { status := 200, key := "message", text := "Container started successfully" })

/-- The handler `StopContainer` (container.go 97-119). -/
def StopContainer (db : List AuditLogRecord) (containerID : String)
    (listing : Except String (List Container)) (err : Option String) :
    List AuditLogRecord × ActionReply :=
  let containerName := findContainerName (listedOrNone listing) containerID
  match err with
  | some e =>
    (LogContainerAction db containerID containerName "stop_failed" "docker-gui" e,
      { status := 500, key := "error", text := e })
  | none =>
    (LogContainerAction db containerID containerName "stop" "docker-gui"
        "Container stopped successfully",
      { status := 200, key := "message", text := "Container stopped successfully" })

/-- The handler `RestartContainer` (container.go 121-143). -/
def RestartContainer (db : List AuditLogRecord) (containerID : String)
    (listing : Except String (List Container)) (err : Option String) :
    List AuditLogRecord × ActionReply :=
  let containerName := findContainerName (listedOrNone listing) containerID
  match err with
  | some e =>
    (LogContainerAction db containerID containerName "restart_failed" "docker-gui" e,
      { status := 500, key := "error", text := e })
  | none =>
    (LogContainerAction db containerID containerName "restart" "docker-gui"
        "Container restarted successfully",
      { status := 200, key := "message", text := "Container restarted successfully" })

/-- The handler `RemoveContainer` (container.go 145-173); `force` is the query
parameter compared with `true`. -/
def RemoveContainer (db : List AuditLogRecord) (containerID : String) (force : Bool)
    (listing : Except String (List Container)) (err : Option String) :
    List AuditLogRecord × ActionReply :=
  let containerName := findContainerName (listedOrNone listing) containerID
  match err with
  | some e =>
    (LogContainerAction db containerID containerName "remove_failed" "docker-gui" e,
      { status := 500, key := "error", text := e })
  | none =>
    let details :=
      "Container removed successfully (force: " ++ (if force then "true" else "false") ++ ")"
    (LogContainerAction db containerID containerName "remove" "docker-gui" details,
      { status := 200, key := "message", text := "Container removed successfully" })

/-- The handler `PullImage` (image.go 35-56). `req` is the outcome of binding
the request body (an error, or the image name), `err` that of the runtime's
pull; the pull is only reached with a bound, non-empty name. -/
def PullImage (db : List AuditLogRecord) (req : Except String Str) (err : Option String) :
    List AuditLogRecord × ActionReply :=
  match req with
  | .error e => (db, { status := 400, key := "error", text := e })
  | .ok imageName =>
    if imageName = [] then
      (db, { status := 400, key := "error", text := "imageName is required" })
    else
      match err with
      | some e =>
        (LogContainerAction db "system" imageName "pull_image_failed" "docker-gui" e,
          { status := 500, key := "error", text := e })
      | none =>
        (LogContainerAction db "system" imageName "pull_image" "docker-gui"
            "Image pulled successfully",
          { status := 200, key := "message", text := "Image pulled successfully" })

/-- The handler `RemoveImage` (image.go 58-71). -/
def RemoveImage (db : List AuditLogRecord) (imageID : Str) (err : Option String) :
    List AuditLogRecord × ActionReply :=
  match err with
  | some e =>
    (LogContainerAction db "system" imageID "remove_image_failed" "docker-gui" e,
      { status := 500, key := "error", text := e })
  | none =>
    (LogContainerAction db "system" imageID "remove_image" "docker-gui"
        "Image removed successfully",
      { status := 200, key := "message", text := "Image removed successfully" })

/-- The handler `PruneImages` (image.go 73-83). -/
def PruneImages (db : List AuditLogRecord) (err : Option String) :
    List AuditLogRecord × ActionReply :=
  match err with
  | some e =>
    (LogContainerAction db "system" (lit "images") "prune_images_failed" "docker-gui" e,
      { status := 500, key := "error", text := e })
  | none =>
    (LogContainerAction db "system" (lit "images") "prune_images" "docker-gui"
        "Images pruned successfully",
      { status := 200, key := "message", text := "Images pruned successfully" })

/-! ## Notions used in the statements -/

/-- A record is zero-valued for a container: it carries the container's id,
display name, image and state, and every usage figure is `0`. -/
def ZeroValuedFor (c : Container) (r : ContainerMetrics) : Prop :=
  r.ContainerID = c.ID ∧ r.ContainerName = getContainerName c.Names ∧
  r.Image = c.Image ∧ r.State = c.State ∧
  r.CPUUsage = F64.zero ∧ r.MemoryUsage = 0 ∧ r.MemoryPercent = F64.zero ∧
  r.NetworkRx = 0 ∧ r.NetworkTx = 0 ∧ r.DiskUsage = 0

/-- A snapshot with the given CPU and memory counters, no network interface
and no block-IO entry. -/
def snapshot (cpu sys preCpu preSys : Nat) (percpu : List Nat) (usage limit : Nat) :
    StatsJSON :=
  { CPUStats := { CPUUsage := { TotalUsage := cpu, PercpuUsage := percpu }, SystemUsage := sys }
    PreCPUStats :=
      { CPUUsage := { TotalUsage := preCpu, PercpuUsage := percpu }, SystemUsage := preSys }
    MemoryStats := { Usage := usage, Limit := limit }
    Networks := []
    BlkioStats := { IoServiceBytesRecursive := [] } }

/-- A container with the given id, names and state. -/
def containerOf (id : String) (names : List Str) (state : String) : Container :=
  { ID := id, Names := names, Image := "img", ImageID := "", Command := "", Created := 0
    State := state, Status := "" }

/-- A message does not begin with a timestamp the parser accepts: whenever it
is cut at its first space, both layouts reject the piece before the space. -/
def NoLeadingTimestamp (parse : Layout → Str → Option Instant) (message : Str) : Prop :=
  ∀ tok rest, message = tok ++ 32 :: rest → 32 ∉ tok →
    parse Layout.RFC3339Nano tok = none ∧ parse Layout.RFC3339 tok = none

/-- The message of a line once the header and a parsed timestamp are removed,
before it is trimmed. -/
def strippedMessage (parse : Layout → Str → Option Instant) (line : Str) : Str :=
  (extractTimestamp parse (splitHeader line).2).2

/-- The stream tag and the message of an entry. -/
def streamMessage (e : LogEntry) : String × Str := (e.Stream, e.Message)

/-- The runtime in which every stats call fails. -/
def failingRuntime : Runtime :=
  { ContainerStats := fun _ => .error "No such container", now := 1700000000 }

/-- The runtime in which every stats call succeeds with an all-zero snapshot,
memory limit `0` included. -/
def zeroLimitRuntime : Runtime :=
  { ContainerStats := fun _ => .ok (snapshot 0 0 0 0 [] 0 0), now := 1700000000 }

/-- Sum of the values of the entries that carry the tag `op`. -/
def taggedSum (op : String) (entries : List BlkioStatEntry) : Nat :=
  ((entries.filter (fun e => e.Op = op)).map (fun e => e.Value)).sum

/-- A snapshot with the given network interfaces and block-IO entries and all
other counters zero. -/
def ioSnapshot (nets : List (String × NetworkStats)) (entries : List BlkioStatEntry) :
    StatsJSON :=
  { snapshot 0 0 0 0 [] 0 0 with
    Networks := nets, BlkioStats := { IoServiceBytesRecursive := entries } }

/-- Statistics with the given memory usage, received and sent bytes, and bytes
read and written. -/
def statsOf (usage rx tx read write : Nat) : ContainerStats :=
  { ID := "c1", Name := "", CPUUsage := F64.fin 40
    Memory := { Usage := usage, Limit := 0, Percent := F64.fin 25 }
    Network := { RxBytes := rx, TxBytes := tx, RxPackets := 0, TxPackets := 0 }
    BlockIo := { ReadBytes := read, WriteBytes := write }
    Time := 1700000000 }

/-- What a handler that reached its runtime call must have done to the audit
trail: one row added after the rows `db`, tagged `action` on success, and
`action_failed` with the error text as details on failure. -/
def AuditedOnce (db db' : List AuditLogRecord) (action : String) (err : Option String) :
    Prop :=
  ∃ r, db' = db ++ [r] ∧
    (err = none → r.Action = action) ∧
    (∀ e, err = some e → r.Action = action ++ "_failed" ∧ r.Details = e)

/-! ## Theorems: the statistics sampler -/

theorem sub64_of_le (a b : Nat) (hb : b ≤ a) (ha : a < 2 ^ 64) : sub64 a b = a - b := by
  unfold sub64
  have h : a + 2 ^ 64 - b = (a - b) + 2 ^ 64 := by omega
  rw [h, Nat.add_mod_right]
  exact Nat.mod_eq_of_lt (by omega)

/-- Claim C8. For a snapshot of `uint64` counters in which the CPU total usage
and the system usage both strictly increased, `calculateCPUPercent` returns
`(cpuDelta / systemDelta) * n * 100` over exact rational arithmetic, `n` being
the length of the per-CPU usage list. -/
theorem calculateCPUPercent_increasing (s : StatsJSON) (hwf : s.WF)
    (hcpu : s.PreCPUStats.CPUUsage.TotalUsage < s.CPUStats.CPUUsage.TotalUsage)
    (hsys : s.PreCPUStats.SystemUsage < s.CPUStats.SystemUsage) :
    calculateCPUPercent s =
      F64.fin
        ((((s.CPUStats.CPUUsage.TotalUsage : ℚ) - (s.PreCPUStats.CPUUsage.TotalUsage : ℚ)) /
            ((s.CPUStats.SystemUsage : ℚ) - (s.PreCPUStats.SystemUsage : ℚ))) *
          (s.CPUStats.CPUUsage.PercpuUsage.length : ℚ) * 100) := by
  obtain ⟨h1, h2, -, -, -, -⟩ := hwf
  have e1 := sub64_of_le _ _ (Nat.le_of_lt hcpu) h1
  have e2 := sub64_of_le _ _ (Nat.le_of_lt hsys) h2
  have p1 : (0 : ℚ) < ((s.CPUStats.CPUUsage.TotalUsage - s.PreCPUStats.CPUUsage.TotalUsage : Nat) : ℚ) := by
    exact_mod_cast Nat.sub_pos_of_lt hcpu
  have p2 : (0 : ℚ) < ((s.CPUStats.SystemUsage - s.PreCPUStats.SystemUsage : Nat) : ℚ) := by
    exact_mod_cast Nat.sub_pos_of_lt hsys
  simp only [calculateCPUPercent, e1, e2, F64.ofNat, F64.zero, F64.gt, F64.div, F64.mul, p1, p2,
    decide_True, Bool.and_self, if_true, ne_of_gt p2, if_false]
  rw [Nat.cast_sub (Nat.le_of_lt hcpu), Nat.cast_sub (Nat.le_of_lt hsys)]
  norm_num

/-- Witness for claim C8: CPU usage went from 100 to 300 while the system usage
went from 100 to 1100 on two CPUs, which gives 40 percent. -/
theorem calculateCPUPercent_increasing_witness :
    calculateCPUPercent (snapshot 300 1100 100 100 [0, 0] 0 0) = F64.fin 40 := by
  have h := calculateCPUPercent_increasing (snapshot 300 1100 100 100 [0, 0] 0 0)
    (by simp [StatsJSON.WF, snapshot]) (by simp [snapshot]) (by simp [snapshot])
  rw [h]
  simp [snapshot]
  norm_num

/-- Claim C3, the code at the failing input. The CPU counter went backwards
from 1 to 0 (an integer delta of -1) while the system counter went from 1 to 2
on one CPU: the `uint64` difference wraps to `2 ^ 64 - 1`, the guard
`cpuDelta > 0` passes and the result is `(2 ^ 64 - 1) * 100`, not `0`. -/
theorem calculateCPUPercent_counter_reset :
    calculateCPUPercent (snapshot 0 2 1 1 [0] 0 0) = F64.fin 1844674407370955161500 ∧
    calculateCPUPercent (snapshot 0 2 1 1 [0] 0 0) ≠ F64.zero := by
  have h : calculateCPUPercent (snapshot 0 2 1 1 [0] 0 0) = F64.fin 1844674407370955161500 := by
    simp [calculateCPUPercent, snapshot, sub64, F64.ofNat, F64.zero, F64.gt, F64.div, F64.mul]
    norm_num
  refine ⟨h, ?_⟩
  rw [h]
  simp [F64.zero]

/-- When the CPU counter or the system counter did not move, the delta is `0`
and `calculateCPUPercent` returns `0`. -/
theorem calculateCPUPercent_unchanged_counter (s : StatsJSON)
    (h : s.CPUStats.CPUUsage.TotalUsage = s.PreCPUStats.CPUUsage.TotalUsage ∨
      s.CPUStats.SystemUsage = s.PreCPUStats.SystemUsage) :
    calculateCPUPercent s = F64.zero := by
  have hz : ∀ a : Nat, sub64 a a = 0 := by
    intro a
    unfold sub64
    rw [Nat.add_sub_cancel_left, Nat.mod_self]
  rcases h with h | h
  · simp [calculateCPUPercent, h, hz, F64.ofNat, F64.zero, F64.gt]
  · simp [calculateCPUPercent, h, hz, F64.ofNat, F64.zero, F64.gt]

/-- Claim C4, the code at the failing input. With a memory limit of `0` the
division is carried out: a usage of `1` gives a memory percent of positive
infinity and a usage of `0` gives not-a-number; neither is `0`. -/
theorem GetContainerStats_zero_limit :
    (GetContainerStats 0 "c1" (.ok (snapshot 0 0 0 0 [] 1 0))).toOption.map
        (fun st => st.Memory.Percent) = some F64.posInf ∧
    (GetContainerStats 0 "c1" (.ok (snapshot 0 0 0 0 [] 0 0))).toOption.map
        (fun st => st.Memory.Percent) = some F64.nan ∧
    F64.posInf ≠ F64.zero ∧ F64.nan ≠ F64.zero := by
  refine ⟨?_, ?_, by simp [F64.zero], by simp [F64.zero]⟩ <;>
    simp [GetContainerStats, snapshot, F64.ofNat, F64.div, F64.mul, Except.toOption]

/-! ## Theorems: the metrics aggregator -/

theorem buildContainerMetrics_not_running (rt : Runtime) (c : Container)
    (h : c.State ≠ "running") :
    buildContainerMetrics rt c =
      { ContainerID := c.ID, ContainerName := getContainerName c.Names, Image := c.Image
        State := c.State, CPUUsage := F64.zero, MemoryUsage := 0, MemoryPercent := F64.zero
        NetworkRx := 0, NetworkTx := 0, DiskUsage := 0, Timestamp := rt.now } := by
  simp [buildContainerMetrics, h]

theorem buildContainerMetrics_probe_error (rt : Runtime) (c : Container) (e : String)
    (h : GetContainerStats rt.now c.ID (rt.ContainerStats c.ID) = .error e) :
    buildContainerMetrics rt c =
      { ContainerID := c.ID, ContainerName := getContainerName c.Names, Image := c.Image
        State := c.State, CPUUsage := F64.zero, MemoryUsage := 0, MemoryPercent := F64.zero
        NetworkRx := 0, NetworkTx := 0, DiskUsage := 0, Timestamp := rt.now } := by
  unfold buildContainerMetrics
  by_cases hs : c.State ≠ "running"
  · simp [hs]
  · simp [hs, h]

theorem metricsLoop_records (rt : Nat → Runtime) (cs : List Container) :
    ∀ (i : Nat) (acc : (String → Nat) × List ContainerMetrics),
      (metricsLoop rt i cs acc).2 =
        acc.2 ++ (cs.enumFrom i).map (fun p => buildContainerMetrics (rt p.1) p.2) := by
  induction cs with
  | nil => intro i acc; simp [metricsLoop]
  | cons c cs ih =>
    intro i acc
    obtain ⟨counters, ms⟩ := acc
    simp [metricsLoop, ih, List.enumFrom]

theorem metricsLoop_counters (rt : Nat → Runtime) (cs : List Container) :
    ∀ (i : Nat) (acc : (String → Nat) × List ContainerMetrics) (k : String),
      (metricsLoop rt i cs acc).1 k = acc.1 k + cs.countP (fun c => c.State = k) := by
  induction cs with
  | nil => intro i acc k; simp [metricsLoop]
  | cons c cs ih =>
    intro i acc k
    obtain ⟨counters, ms⟩ := acc
    rw [metricsLoop, ih, List.countP_cons]
    by_cases h : k = c.State
    · subst h; simp; omega
    · simp [h, Ne.symm h]

/-- The body `GetOverallMetrics` hands to `c.JSON` when the listing succeeded:
one record per container in the order of the listing, and the four counts. -/
theorem GetOverallMetrics_body (containers : List Container) (rt : Nat → Runtime)
    (sys alloc : Nat) :
    ∃ body, GetOverallMetrics (.ok containers) rt sys alloc = cJSON 200 body ∧
      body.Containers = containers.enum.map (fun p => buildContainerMetrics (rt p.1) p.2) ∧
      body.SystemCPU = F64.zero ∧
      body.TotalContainers = containers.length ∧
      body.RunningContainers = containers.countP (fun c => c.State = "running") ∧
      body.StoppedContainers = containers.countP (fun c => c.State = "exited") ∧
      body.PausedContainers = containers.countP (fun c => c.State = "paused") := by
  refine ⟨_, rfl, ?_, rfl, rfl, ?_, ?_, ?_⟩
  · simp [metricsLoop_records, List.enum]
  · simp [metricsLoop_counters]
  · simp [metricsLoop_counters]
  · simp [metricsLoop_counters]

theorem cJSON_of_encodable (status : Nat) (body : OverallMetrics)
    (h : body.encodable = true) : cJSON status body = .json status body := by
  simp [cJSON, h]

theorem cJSON_of_not_encodable (status : Nat) (body : OverallMetrics)
    (h : body.encodable = false) : cJSON status body = .unencoded status := by
  simp [cJSON, h]

theorem ZeroValuedFor.encodable {c : Container} {r : ContainerMetrics}
    (h : ZeroValuedFor c r) : r.encodable = true := by
  obtain ⟨-, -, -, -, h1, -, h2, -⟩ := h
  simp [ContainerMetrics.encodable, h1, h2, F64.zero, F64.isFinite]

theorem ZeroValuedFor_not_running (rt : Runtime) (c : Container) (h : c.State ≠ "running") :
    ZeroValuedFor c (buildContainerMetrics rt c) := by
  rw [buildContainerMetrics_not_running rt c h]
  simp [ZeroValuedFor]

theorem ZeroValuedFor_probe_error (rt : Runtime) (c : Container) (e : String)
    (h : GetContainerStats rt.now c.ID (rt.ContainerStats c.ID) = .error e) :
    ZeroValuedFor c (buildContainerMetrics rt c) := by
  rw [buildContainerMetrics_probe_error rt c e h]
  simp [ZeroValuedFor]

/-- The CPU percent is always a finite number. -/
theorem calculateCPUPercent_isFinite (s : StatsJSON) :
    (calculateCPUPercent s).isFinite = true := by
  unfold calculateCPUPercent
  simp only [F64.ofNat, F64.zero, F64.gt]
  split
  · rename_i h
    simp only [Bool.and_eq_true, decide_eq_true_eq] at h
    simp [F64.div, F64.mul, F64.isFinite, ne_of_gt h.1]
  · rfl

/-- The record of a container can be encoded unless its probe succeeded with a
memory limit of `0`. -/
theorem buildContainerMetrics_encodable (rt : Runtime) (c : Container)
    (h : c.State = "running" → ∀ s, rt.ContainerStats c.ID = .ok s → s.MemoryStats.Limit ≠ 0) :
    (buildContainerMetrics rt c).encodable = true := by
  by_cases hs : c.State ≠ "running"
  · exact (ZeroValuedFor_not_running rt c hs).encodable
  · have hrun : c.State = "running" := by simpa using hs
    rcases hp : rt.ContainerStats c.ID with e | s
    · exact (ZeroValuedFor_probe_error rt c e (by simp [GetContainerStats, hp])).encodable
    · have hl : ((s.MemoryStats.Limit : Nat) : ℚ) ≠ 0 := by
        exact_mod_cast h hrun s hp
      have hcpu := calculateCPUPercent_isFinite s
      rcases hq : calculateCPUPercent s with q | _ | _ | _
      · simp [buildContainerMetrics, hrun, GetContainerStats, hp,
          buildContainerMetricsFromStats, ContainerMetrics.encodable, hq, F64.ofNat, F64.div,
          F64.mul, F64.isFinite, hl]
      all_goals
        rw [hq] at hcpu
        simp [F64.isFinite] at hcpu

/-- When no running container's probe succeeds with a memory limit of `0`,
`GetOverallMetrics` replies with status 200 and a body that holds one record
per listed container, in the order of the listing, and the four counts. -/
theorem GetOverallMetrics_json (containers : List Container) (rt : Nat → Runtime)
    (sys alloc : Nat)
    (h : ∀ (i : Nat) (c : Container), containers[i]? = some c → c.State = "running" →
      ∀ s, (rt i).ContainerStats c.ID = .ok s → s.MemoryStats.Limit ≠ 0) :
    ∃ body, GetOverallMetrics (.ok containers) rt sys alloc = .json 200 body ∧
      body.Containers = containers.enum.map (fun p => buildContainerMetrics (rt p.1) p.2) ∧
      body.TotalContainers = containers.length ∧
      body.RunningContainers = containers.countP (fun c => c.State = "running") ∧
      body.StoppedContainers = containers.countP (fun c => c.State = "exited") ∧
      body.PausedContainers = containers.countP (fun c => c.State = "paused") := by
  obtain ⟨body, hb, hc, hcpu, h1, h2, h3, h4⟩ := GetOverallMetrics_body containers rt sys alloc
  refine ⟨body, ?_, hc, h1, h2, h3, h4⟩
  rw [hb]
  apply cJSON_of_encodable
  simp only [OverallMetrics.encodable, hcpu, F64.zero, F64.isFinite, Bool.true_and,
    List.all_eq_true, hc]
  intro r hr
  obtain ⟨p, hp, rfl⟩ := List.mem_map.mp hr
  obtain ⟨i, c⟩ := p
  have hi : containers[i]? = some c := by
    have := List.mk_mem_enum_iff_getElem?.mp hp
    exact this
  exact buildContainerMetrics_encodable (rt i) c (h i c hi)

/-- Under the condition of `GetOverallMetrics_json` for two behaviours of the
runtime that agree while container `i` is processed, the record of index `i`
is the same in both replies. -/
theorem GetOverallMetrics_json_isolation (containers : List Container)
    (rt rt' : Nat → Runtime) (sys alloc : Nat) (i : Nat)
    (h : ∀ (k : Nat) (c : Container), containers[k]? = some c → c.State = "running" →
      ∀ s, (rt k).ContainerStats c.ID = .ok s → s.MemoryStats.Limit ≠ 0)
    (h' : ∀ (k : Nat) (c : Container), containers[k]? = some c → c.State = "running" →
      ∀ s, (rt' k).ContainerStats c.ID = .ok s → s.MemoryStats.Limit ≠ 0)
    (hi : rt' i = rt i) :
    ∃ body body', GetOverallMetrics (.ok containers) rt sys alloc = .json 200 body ∧
      GetOverallMetrics (.ok containers) rt' sys alloc = .json 200 body' ∧
      body'.Containers[i]? = body.Containers[i]? ∧
      body.Containers[i]? = (containers[i]?).map (fun c => buildContainerMetrics (rt i) c) := by
  obtain ⟨body, hb, hc, -⟩ := GetOverallMetrics_json containers rt sys alloc h
  obtain ⟨body', hb', hc', -⟩ := GetOverallMetrics_json containers rt' sys alloc h'
  have hget : ∀ (rt0 : Nat → Runtime),
      (containers.enum.map (fun p => buildContainerMetrics (rt0 p.1) p.2))[i]? =
        (containers[i]?).map (fun c => buildContainerMetrics (rt0 i) c) := by
    intro rt0
    rw [List.getElem?_map, List.enum, List.getElem?_enumFrom]
    cases containers[i]? <;> simp
  refine ⟨body, body', hb, hb', ?_, ?_⟩
  · rw [hc, hc', hget, hget, hi]
  · rw [hc, hget]

/-- Claim C1. A container that is not `running` gets a zero-valued record that
carries its id, display name, image and state, whatever the stats probe would
answer (two runtimes with the same clock give the same record); a running
container whose probe returns an error gets a zero-valued record too; and a
listing of an `exited` container followed by a `running` one whose probe fails
aggregates to two zero-valued records. -/
theorem buildContainerMetrics_zero_valued :
    (∀ (rt : Runtime) (c : Container), c.State ≠ "running" →
      ZeroValuedFor c (buildContainerMetrics rt c) ∧
      ∀ rt' : Runtime, rt'.now = rt.now →
        buildContainerMetrics rt' c = buildContainerMetrics rt c) ∧
    (∀ (rt : Runtime) (c : Container) (e : String), c.State = "running" →
      GetContainerStats rt.now c.ID (rt.ContainerStats c.ID) = .error e →
      ZeroValuedFor c (buildContainerMetrics rt c)) ∧
    (∀ (rt : Nat → Runtime) (c0 c1 : Container) (e : String) (sys alloc : Nat),
      c0.State = "exited" → c1.State = "running" →
      GetContainerStats (rt 1).now c1.ID ((rt 1).ContainerStats c1.ID) = .error e →
      ∃ body r0 r1, GetOverallMetrics (.ok [c0, c1]) rt sys alloc = .json 200 body ∧
        body.Containers = [r0, r1] ∧ ZeroValuedFor c0 r0 ∧ ZeroValuedFor c1 r1) := by
  refine ⟨?_, ?_, ?_⟩
  · intro rt c h
    refine ⟨ZeroValuedFor_not_running rt c h, ?_⟩
    intro rt' hnow
    rw [buildContainerMetrics_not_running rt c h, buildContainerMetrics_not_running rt' c h, hnow]
  · intro rt c e _ h
    exact ZeroValuedFor_probe_error rt c e h
  · intro rt c0 c1 e sys alloc h0 _ h
    obtain ⟨body, hb, hc, hcpu, -⟩ := GetOverallMetrics_body [c0, c1] rt sys alloc
    have z0 := ZeroValuedFor_not_running (rt 0) c0 (by rw [h0]; decide)
    have z1 := ZeroValuedFor_probe_error (rt 1) c1 e h
    have hc' : body.Containers =
        [buildContainerMetrics (rt 0) c0, buildContainerMetrics (rt 1) c1] := by
      rw [hc]; rfl
    refine ⟨body, _, _, ?_, hc', z0, z1⟩
    rw [hb]
    apply cJSON_of_encodable
    simp [OverallMetrics.encodable, hcpu, F64.zero, F64.isFinite, hc', z0.encodable,
      z1.encodable]

/-- Witness for claim C1: an exited and a running container against a runtime
whose stats call always fails. -/
theorem buildContainerMetrics_zero_valued_witness :
    ∃ body r0 r1,
      GetOverallMetrics
          (.ok [containerOf "c0" [lit "/db"] "exited", containerOf "c1" [lit "/web"] "running"])
          (fun _ => failingRuntime) 0 0 = .json 200 body ∧
        body.Containers = [r0, r1] ∧
        ZeroValuedFor (containerOf "c0" [lit "/db"] "exited") r0 ∧
        ZeroValuedFor (containerOf "c1" [lit "/web"] "running") r1 :=
  buildContainerMetrics_zero_valued.2.2 (fun _ => failingRuntime)
    (containerOf "c0" [lit "/db"] "exited") (containerOf "c1" [lit "/web"] "running")
    "No such container" 0 0 rfl rfl rfl

/-- The record of a running container whose probe succeeds with the all-zero
snapshot has a memory percent that is not-a-number and cannot be encoded. -/
theorem zero_limit_record_not_encodable (c : Container) (h : c.State = "running") :
    (buildContainerMetrics zeroLimitRuntime c).encodable = false := by
  simp [buildContainerMetrics, h, zeroLimitRuntime, GetContainerStats, snapshot,
    buildContainerMetricsFromStats, ContainerMetrics.encodable, F64.ofNat, F64.div, F64.mul,
    F64.isFinite]

/-- Claim C2, the code at the failing input. An exited container is listed
before a running one. When the probe of the running container fails, the reply
has status 200 and holds the zero-valued records of both. When instead that
probe succeeds with a memory limit of `0`, and nothing else changes, the
memory percent of its record is not-a-number, the body cannot be encoded and
the reply has no body: the record of the exited container is lost too. -/
theorem GetOverallMetrics_zero_limit_drops_records :
    (∃ body,
      GetOverallMetrics
          (.ok [containerOf "c0" [lit "/db"] "exited", containerOf "c1" [lit "/web"] "running"])
          (fun _ => failingRuntime) 0 0 = .json 200 body ∧
        body.Containers[0]? =
          some (buildContainerMetrics failingRuntime (containerOf "c0" [lit "/db"] "exited"))) ∧
    GetOverallMetrics
        (.ok [containerOf "c0" [lit "/db"] "exited", containerOf "c1" [lit "/web"] "running"])
        (fun i => if i = 1 then zeroLimitRuntime else failingRuntime) 0 0 =
      .unencoded 200 := by
  constructor
  · obtain ⟨body, hb, hc, -⟩ :=
      GetOverallMetrics_json
        [containerOf "c0" [lit "/db"] "exited", containerOf "c1" [lit "/web"] "running"]
        (fun _ => failingRuntime) 0 0
        (by intro i c _ _ s hs; simp [failingRuntime] at hs)
    exact ⟨body, hb, by rw [hc]; rfl⟩
  · obtain ⟨body, hb, hc, -⟩ :=
      GetOverallMetrics_body
        [containerOf "c0" [lit "/db"] "exited", containerOf "c1" [lit "/web"] "running"]
        (fun i => if i = 1 then zeroLimitRuntime else failingRuntime) 0 0
    rw [hb]
    apply cJSON_of_not_encodable
    have hc' : body.Containers =
        [buildContainerMetrics failingRuntime (containerOf "c0" [lit "/db"] "exited"),
          buildContainerMetrics zeroLimitRuntime (containerOf "c1" [lit "/web"] "running")] := by
      rw [hc]; rfl
    simp [OverallMetrics.encodable, hc',
      zero_limit_record_not_encodable (containerOf "c1" [lit "/web"] "running") rfl]

/-! ## Theorems: trimming, splitting and the loop -/

theorem trimLeft_one (a : Nat) (t : Str) (h : isSpace1 a = true) :
    trimLeft (a :: t) = trimLeft t := by
  rcases t with _ | ⟨b, _ | ⟨c, t3⟩⟩ <;> simp [trimLeft, h]

theorem trimLeft_two (a b : Nat) (t : Str) (h1 : isSpace1 a = false)
    (h2 : isSpace2 a b = true) : trimLeft (a :: b :: t) = trimLeft t := by
  rcases t with _ | ⟨c, t3⟩ <;> simp [trimLeft, h1, h2]

theorem trimLeft_three (a b c : Nat) (t : Str) (h1 : isSpace1 a = false)
    (h2 : isSpace2 a b = false) (h3 : isSpace3 a b c = true) :
    trimLeft (a :: b :: c :: t) = trimLeft t := by
  simp [trimLeft, h1, h2, h3]

theorem trimLeft_of_leadingSpace (s : Str) (h : leadingSpace s = 0) : trimLeft s = s := by
  rcases s with _ | ⟨a, _ | ⟨b, _ | ⟨c, t3⟩⟩⟩
  · rfl
  · by_cases h1 : isSpace1 a = true <;> simp_all [trimLeft, leadingSpace]
  · by_cases h1 : isSpace1 a = true <;> by_cases h2 : isSpace2 a b = true <;>
      simp_all [trimLeft, leadingSpace]
  · by_cases h1 : isSpace1 a = true <;> by_cases h2 : isSpace2 a b = true <;>
      by_cases h3 : isSpace3 a b c = true <;> simp_all [trimLeft, leadingSpace]

theorem leadingSpace_trimLeft (s : Str) : leadingSpace (trimLeft s) = 0 := by
  induction s using trimLeft.induct with
  | case1 => simp [trimLeft, leadingSpace]
  | case2 a t h ih => rw [trimLeft_one a t h]; exact ih
  | case3 a h => simp [trimLeft, h, leadingSpace]
  | case4 a h1 b t h2 ih => rw [trimLeft_two a b t (by simpa using h1) h2]; exact ih
  | case5 a h1 b h2 => simp [trimLeft, h1, h2, leadingSpace]
  | case6 a h1 b h2 c t h3 ih =>
    rw [trimLeft_three a b c t (by simpa using h1) (by simpa using h2) h3]; exact ih
  | case7 a h1 b h2 c t h3 => simp [trimLeft, h1, h2, h3, leadingSpace]

theorem trimRev_one (a : Nat) (t : Str) (h : isSpace1 a = true) :
    trimRev (a :: t) = trimRev t := by
  rcases t with _ | ⟨b, _ | ⟨c, t3⟩⟩ <;> simp [trimRev, h]

theorem trimRev_two (a b : Nat) (t : Str) (h1 : isSpace1 a = false)
    (h2 : isSpace2 b a = true) : trimRev (a :: b :: t) = trimRev t := by
  rcases t with _ | ⟨c, t3⟩ <;> simp [trimRev, h1, h2]

theorem trimRev_three (a b c : Nat) (t : Str) (h1 : isSpace1 a = false)
    (h2 : isSpace2 b a = false) (h3 : isSpace3 c b a = true) :
    trimRev (a :: b :: c :: t) = trimRev t := by
  simp [trimRev, h1, h2, h3]

theorem leadingSpaceRev_trimRev (s : Str) : leadingSpaceRev (trimRev s) = 0 := by
  induction s using trimRev.induct with
  | case1 => simp [trimRev, leadingSpaceRev]
  | case2 a t h ih => rw [trimRev_one a t h]; exact ih
  | case3 a h => simp [trimRev, h, leadingSpaceRev]
  | case4 a h1 b t h2 ih => rw [trimRev_two a b t (by simpa using h1) h2]; exact ih
  | case5 a h1 b h2 => simp [trimRev, h1, h2, leadingSpaceRev]
  | case6 a h1 b h2 c t h3 ih =>
    rw [trimRev_three a b c t (by simpa using h1) (by simpa using h2) h3]; exact ih
  | case7 a h1 b h2 c t h3 => simp [trimRev, h1, h2, h3, leadingSpaceRev]

theorem trailingSpace_trimRight (s : Str) : trailingSpace (trimRight s) = 0 := by
  simp [trailingSpace, trimRight, leadingSpaceRev_trimRev]

theorem trimRev_suffix (s : Str) : ∃ p, s = p ++ trimRev s := by
  induction s using trimRev.induct with
  | case1 => exact ⟨[], rfl⟩
  | case2 a t h ih =>
    obtain ⟨p, hp⟩ := ih
    exact ⟨a :: p, by rw [trimRev_one a t h, List.cons_append, ← hp]⟩
  | case3 a h => exact ⟨[], by simp [trimRev, h]⟩
  | case4 a h1 b t h2 ih =>
    obtain ⟨p, hp⟩ := ih
    exact ⟨a :: b :: p, by
      rw [trimRev_two a b t (by simpa using h1) h2, List.cons_append, List.cons_append, ← hp]⟩
  | case5 a h1 b h2 => exact ⟨[], by simp [trimRev, h1, h2]⟩
  | case6 a h1 b h2 c t h3 ih =>
    obtain ⟨p, hp⟩ := ih
    exact ⟨a :: b :: c :: p, by
      rw [trimRev_three a b c t (by simpa using h1) (by simpa using h2) h3]
      simp only [List.cons_append]
      rw [← hp]⟩
  | case7 a h1 b h2 c t h3 => exact ⟨[], by simp [trimRev, h1, h2, h3]⟩

theorem trimRight_prefix (s : Str) : ∃ q, s = trimRight s ++ q := by
  obtain ⟨p, hp⟩ := trimRev_suffix s.reverse
  refine ⟨p.reverse, ?_⟩
  have := congrArg List.reverse hp
  simpa [trimRight] using this

theorem leadingSpace_of_append (p q : Str) (h : leadingSpace (p ++ q) = 0) :
    leadingSpace p = 0 := by
  rcases p with _ | ⟨a, _ | ⟨b, _ | ⟨c, t3⟩⟩⟩
  · rfl
  · by_cases h1 : isSpace1 a = true <;> simp_all [leadingSpace]
  · by_cases h1 : isSpace1 a = true <;> by_cases h2 : isSpace2 a b = true <;>
      simp_all [leadingSpace]
  · by_cases h1 : isSpace1 a = true <;> by_cases h2 : isSpace2 a b = true <;>
      by_cases h3 : isSpace3 a b c = true <;> simp_all [leadingSpace]

theorem leadingSpace_TrimSpace (s : Str) : leadingSpace (TrimSpace s) = 0 := by
  obtain ⟨q, hq⟩ := trimRight_prefix (trimLeft s)
  apply leadingSpace_of_append _ q
  unfold TrimSpace
  rw [← hq]
  exact leadingSpace_trimLeft s

theorem trailingSpace_TrimSpace (s : Str) : trailingSpace (TrimSpace s) = 0 :=
  trailingSpace_trimRight _

theorem isSpace2_not_isSpace1 {a b : Nat} (h : isSpace2 a b = true) : isSpace1 a = false := by
  simp [isSpace2] at h
  simp [isSpace1, h.1]

theorem isSpace3_not_isSpace1 {a b c : Nat} (h : isSpace3 a b c = true) :
    isSpace1 a = false := by
  simp [isSpace3] at h
  rcases h with ((h | h) | h) | h <;> simp [isSpace1, h.1]

theorem isSpace3_not_isSpace2 {a b c : Nat} (h : isSpace3 a b c = true) :
    isSpace2 a b = false := by
  simp [isSpace3] at h
  rcases h with ((h | h) | h) | h <;> simp [isSpace2, h.1]

theorem AllSpace.append {p q : Str} (hp : AllSpace p) (hq : AllSpace q) : AllSpace (p ++ q) := by
  induction hp with
  | nil => simpa using hq
  | one a t h _ ih => exact AllSpace.one a _ h ih
  | two a b t h _ ih => exact AllSpace.two a b _ h ih
  | three a b c t h _ ih => exact AllSpace.three a b c _ h ih

theorem trimLeft_of_AllSpace {s : Str} (h : AllSpace s) : trimLeft s = [] := by
  induction h with
  | nil => rfl
  | one a t h _ ih => rw [trimLeft_one a t h]; exact ih
  | two a b t h _ ih => rw [trimLeft_two a b t (isSpace2_not_isSpace1 h) h]; exact ih
  | three a b c t h _ ih =>
    rw [trimLeft_three a b c t (isSpace3_not_isSpace1 h) (isSpace3_not_isSpace2 h) h]; exact ih

theorem AllSpace_of_trimLeft (s : Str) (h : trimLeft s = []) : AllSpace s := by
  induction s using trimLeft.induct with
  | case1 => exact AllSpace.nil
  | case2 a t h1 ih => rw [trimLeft_one a t h1] at h; exact AllSpace.one a t h1 (ih h)
  | case3 a h1 => simp [trimLeft, h1] at h
  | case4 a h1 b t h2 ih =>
    rw [trimLeft_two a b t (by simpa using h1) h2] at h; exact AllSpace.two a b t h2 (ih h)
  | case5 a h1 b h2 => simp [trimLeft, h1, h2] at h
  | case6 a h1 b h2 c t h3 ih =>
    rw [trimLeft_three a b c t (by simpa using h1) (by simpa using h2) h3] at h
    exact AllSpace.three a b c t h3 (ih h)
  | case7 a h1 b h2 c t h3 => simp [trimLeft, h1, h2, h3] at h

theorem AllSpace_reverse_of_trimRev (s : Str) (h : trimRev s = []) : AllSpace s.reverse := by
  induction s using trimRev.induct with
  | case1 => exact AllSpace.nil
  | case2 a t h1 ih =>
    rw [trimRev_one a t h1] at h
    rw [List.reverse_cons]
    exact (ih h).append (AllSpace.one a [] h1 AllSpace.nil)
  | case3 a h1 => simp [trimRev, h1] at h
  | case4 a h1 b t h2 ih =>
    rw [trimRev_two a b t (by simpa using h1) h2] at h
    have := (ih h).append (AllSpace.two b a [] h2 AllSpace.nil)
    simpa using this
  | case5 a h1 b h2 => simp [trimRev, h1, h2] at h
  | case6 a h1 b h2 c t h3 ih =>
    rw [trimRev_three a b c t (by simpa using h1) (by simpa using h2) h3] at h
    have := (ih h).append (AllSpace.three c b a [] h3 AllSpace.nil)
    simpa using this
  | case7 a h1 b h2 c t h3 => simp [trimRev, h1, h2, h3] at h

theorem eq_nil_of_AllSpace_of_leadingSpace {s : Str} (h : AllSpace s)
    (h0 : leadingSpace s = 0) : s = [] := by
  cases h with
  | nil => rfl
  | one a t h1 _ => simp [leadingSpace, h1] at h0
  | two a b t h2 _ => simp [leadingSpace, isSpace2_not_isSpace1 h2, h2] at h0
  | three a b c t h3 _ =>
    simp [leadingSpace, isSpace3_not_isSpace1 h3, isSpace3_not_isSpace2 h3, h3] at h0

theorem TrimSpace_eq_nil_iff (s : Str) : TrimSpace s = [] ↔ AllSpace s := by
  constructor
  · intro h
    apply AllSpace_of_trimLeft
    have h1 : trimRev (trimLeft s).reverse = [] := by
      simpa [TrimSpace, trimRight] using h
    have h2 := AllSpace_reverse_of_trimRev _ h1
    rw [List.reverse_reverse] at h2
    exact eq_nil_of_AllSpace_of_leadingSpace h2 (leadingSpace_trimLeft s)
  · intro h
    simp [TrimSpace, trimLeft_of_AllSpace h, trimRight, trimRev]

theorem Split_ne_nil (s : Str) : Split s ≠ [] := by
  induction s with
  | nil => simp [Split]
  | cons b bs ih =>
    unfold Split
    split
    · simp
    · split <;> simp

theorem Split_append (a b : Str) : Split (a ++ 10 :: b) = Split a ++ Split b := by
  induction a with
  | nil => simp [Split]
  | cons c cs ih =>
    by_cases hc : c = 10
    · subst hc
      simp [Split, ih]
    · rcases hs : Split cs with _ | ⟨l, ls⟩
      · exact absurd hs (Split_ne_nil cs)
      · simp [Split, hc, ih, hs]

theorem Split_of_no_newline (s : Str) (h : 10 ∉ s) : Split s = [s] := by
  induction s with
  | nil => rfl
  | cons c cs ih =>
    have hc : c ≠ 10 := fun e => h (by simp [e])
    have hcs : 10 ∉ cs := fun e => h (by simp [e])
    simp [Split, hc, ih hcs]

theorem cutSpace_append (tok rest : Str) (h : 32 ∉ tok) :
    cutSpace (tok ++ 32 :: rest) = some (tok, rest) := by
  induction tok with
  | nil => simp [cutSpace]
  | cons c cs ih =>
    have hc : c ≠ 32 := fun e => h (by simp [e])
    have hcs : 32 ∉ cs := fun e => h (by simp [e])
    simp [cutSpace, hc, ih hcs]

theorem cutSpace_some (s before after : Str) (h : cutSpace s = some (before, after)) :
    s = before ++ 32 :: after ∧ 32 ∉ before := by
  induction s generalizing before with
  | nil => simp [cutSpace] at h
  | cons c cs ih =>
    by_cases hc : c = 32
    · subst hc
      simp [cutSpace] at h
      obtain ⟨h1, h2⟩ := h
      subst h1 h2
      simp
    · rcases hs : cutSpace cs with _ | ⟨b', a'⟩
      · simp [cutSpace, hc, hs] at h
      · simp [cutSpace, hc, hs] at h
        obtain ⟨h1, h2⟩ := h
        subst h1 h2
        obtain ⟨e1, e2⟩ := ih b' hs
        refine ⟨by rw [List.cons_append, ← e1], ?_⟩
        simp [e2, Ne.symm hc]

theorem logLoop_eq (parse : Layout → Str → Option Instant) (lines : List Str) :
    ∀ acc, logLoop parse lines acc = acc ++ lines.filterMap (processLine parse) := by
  induction lines with
  | nil => intro acc; simp [logLoop]
  | cons l ls ih =>
    intro acc
    rcases h : processLine parse l with _ | e
    · simp [logLoop, h, ih]
    · simp [logLoop, h, ih]

theorem GetContainerLogs_ok (parse : Layout → Str → Option Instant) (content : Str) :
    GetContainerLogs parse (.ok content) =
      .ok ((Split content).filterMap (processLine parse)) := by
  simp [GetContainerLogs, logLoop_eq]

theorem timeParse_short (layout : Layout) (tok : Str) (h : tok.length < 12) :
    timeParse layout tok = none := by
  unfold timeParse
  split
  · simp at h; omega
  · rfl

theorem extractTimestamp_of_none (parse : Layout → Str → Option Instant) (message : Str)
    (h : NoLeadingTimestamp parse message) :
    extractTimestamp parse message = (LogTime.wallClock, message) := by
  unfold extractTimestamp
  split
  · rcases hc : cutSpace message with _ | ⟨before, after⟩
    · simp [SplitN2, hc]
    · obtain ⟨e1, e2⟩ := cutSpace_some _ _ _ hc
      obtain ⟨p1, p2⟩ := h before after e1 e2
      simp [SplitN2, hc, p1, p2]
  · rfl

theorem extractTimestamp_of_some (parse : Layout → Str → Option Instant) (tok rest : Str)
    (t : Instant) (hsp : 32 ∉ tok) (hT : 84 ∈ tok) (hZ : 90 ∈ tok ∨ 43 ∈ tok)
    (hp : parse Layout.RFC3339Nano tok = some t ∨
      (parse Layout.RFC3339Nano tok = none ∧ parse Layout.RFC3339 tok = some t)) :
    extractTimestamp parse (tok ++ 32 :: rest) = (LogTime.parsed t, rest) := by
  have hc := cutSpace_append tok rest hsp
  have hcond : 84 ∈ tok ++ 32 :: rest ∧ (90 ∈ tok ++ 32 :: rest ∨ 43 ∈ tok ++ 32 :: rest) := by
    refine ⟨List.mem_append_left _ hT, ?_⟩
    rcases hZ with hZ | hZ
    · exact Or.inl (List.mem_append_left _ hZ)
    · exact Or.inr (List.mem_append_left _ hZ)
  unfold extractTimestamp
  rw [if_pos hcond]
  rcases hp with hp | ⟨hp1, hp2⟩
  · simp [SplitN2, hc, hp]
  · simp [SplitN2, hc, hp1, hp2]

/-! ## Theorems: the log demultiplexer -/

theorem not_AllSpace_of_TrimSpace {s : Str} (h : TrimSpace s ≠ []) : ¬ AllSpace s :=
  fun hs => h ((TrimSpace_eq_nil_iff s).mpr hs)

theorem processLine_of_none (parse : Layout → Str → Option Instant) (line : Str)
    (hne : line ≠ []) (hns : ¬ AllSpace (splitHeader line).2)
    (hts : NoLeadingTimestamp parse (splitHeader line).2) :
    processLine parse line =
      some { Timestamp := LogTime.wallClock, Message := TrimSpace (splitHeader line).2
             Stream := (splitHeader line).1 } := by
  have hlen : line.length ≠ 0 := by simpa using hne
  have htrim : TrimSpace (splitHeader line).2 ≠ [] :=
    fun h => hns ((TrimSpace_eq_nil_iff _).mp h)
  simp [processLine, hlen, extractTimestamp_of_none parse _ hts, htrim]

theorem splitHeader_long (line : Str) (h8 : 8 ≤ line.length) :
    splitHeader line = (if line.head? = some 2 then "stderr" else "stdout", line.drop 8) := by
  unfold splitHeader
  rw [if_pos h8]
  rcases line with _ | ⟨a, t⟩
  · simp
  · by_cases h1 : a = 1
    · subst h1; simp
    · by_cases h2 : a = 2
      · subst h2; simp
      · simp [h2]
        split <;> simp_all

theorem splitHeader_short (line : Str) (h7 : line.length ≤ 7) :
    splitHeader line = ("stdout", line) := by
  unfold splitHeader
  rw [if_neg (by omega)]

theorem NoLeadingTimestamp_short (line : Str) (h : line.length < 12) :
    NoLeadingTimestamp timeParse line := by
  intro tok rest e _
  have hl : tok.length < 12 := by
    have := congrArg List.length e
    simp at this
    omega
  exact ⟨timeParse_short _ _ hl, timeParse_short _ _ hl⟩

/-- Claim C5. A line of at least 8 bytes without a line feed, whose payload
(the bytes from index 8 on) is not all white space and does not begin with a
timestamp the parser accepts, yields exactly one entry: its message is the
trimmed payload and its stream is `stderr` when byte 0 is 2 and `stdout` for
every other value of byte 0. -/
theorem GetContainerLogs_framed_line (parse : Layout → Str → Option Instant) (line : Str)
    (h8 : 8 ≤ line.length) (hnl : 10 ∉ line) (hns : ¬ AllSpace (line.drop 8))
    (hts : NoLeadingTimestamp parse (line.drop 8)) :
    GetContainerLogs parse (.ok line) =
      .ok [{ Timestamp := LogTime.wallClock, Message := TrimSpace (line.drop 8)
             Stream := if line.head? = some 2 then "stderr" else "stdout" }] := by
  have hne : line ≠ [] := by
    intro e; subst e; simp at h8
  have hh := splitHeader_long line h8
  have hp := processLine_of_none parse line hne (by rw [hh]; exact hns) (by rw [hh]; exact hts)
  rw [GetContainerLogs_ok, Split_of_no_newline line hnl]
  simp [hp, hh]

/-- Witness for claim C5: the frame `[1,0,0,0,0,0,0,0]` followed by `hello`
yields one `stdout` entry with message `hello`. -/
theorem GetContainerLogs_framed_line_witness :
    GetContainerLogs timeParse (.ok ([1, 0, 0, 0, 0, 0, 0, 0] ++ lit "hello")) =
      .ok [{ Timestamp := LogTime.wallClock, Message := lit "hello", Stream := "stdout" }] :=
  GetContainerLogs_framed_line timeParse ([1, 0, 0, 0, 0, 0, 0, 0] ++ lit "hello")
    (by decide) (by decide) (not_AllSpace_of_TrimSpace (by decide))
    (NoLeadingTimestamp_short _ (by decide))

/-- Claim C7. A line of 1 to 7 bytes without a line feed that is not all white
space yields exactly one entry, with stream `stdout` and the whole trimmed line
as message, whatever its first byte is: nothing is removed as a header. -/
theorem GetContainerLogs_short_line (line : Str) (h1 : 1 ≤ line.length)
    (h7 : line.length ≤ 7) (hnl : 10 ∉ line) (hns : ¬ AllSpace line) :
    GetContainerLogs timeParse (.ok line) =
      .ok [{ Timestamp := LogTime.wallClock, Message := TrimSpace line, Stream := "stdout" }] := by
  have hne : line ≠ [] := by
    intro e; subst e; simp at h1
  have hh := splitHeader_short line h7
  have hp := processLine_of_none timeParse line hne (by rw [hh]; exact hns)
    (by rw [hh]; exact NoLeadingTimestamp_short line (by omega))
  rw [GetContainerLogs_ok, Split_of_no_newline line hnl]
  simp [hp, hh]

/-- Witness for claim C7: the line `hi` yields one `stdout` entry with message
`hi`, and a short line whose first byte is 2 keeps that byte and is tagged
`stdout`. -/
theorem GetContainerLogs_short_line_witness :
    GetContainerLogs timeParse (.ok (lit "hi")) =
      .ok [{ Timestamp := LogTime.wallClock, Message := lit "hi", Stream := "stdout" }] ∧
    GetContainerLogs timeParse (.ok (2 :: lit "hi")) =
      .ok [{ Timestamp := LogTime.wallClock, Message := 2 :: lit "hi", Stream := "stdout" }] :=
  ⟨GetContainerLogs_short_line (lit "hi") (by decide) (by decide) (by decide)
      (not_AllSpace_of_TrimSpace (by decide)),
    GetContainerLogs_short_line (2 :: lit "hi") (by decide) (by decide) (by decide)
      (not_AllSpace_of_TrimSpace (by decide))⟩

/-- Claim C6, counterexample. The line `2024-01-01T00:00:00Z some message` has
33 bytes, so its first 8 bytes are removed as a header although the parser
accepts its first token: the entry has the message `01T00:00:00Z some message`
and the time of processing, not the message `some message` with the parsed
time. -/
theorem GetContainerLogs_unframed_timestamp_line :
    timeParse Layout.RFC3339Nano (lit "2024-01-01T00:00:00Z") =
      some { year := 2024, month := 1, day := 1, hour := 0, minute := 0, second := 0
             nanosecond := 0, offset := 0 } ∧
    GetContainerLogs timeParse (.ok (lit "2024-01-01T00:00:00Z some message")) =
      .ok [{ Timestamp := LogTime.wallClock, Message := lit "01T00:00:00Z some message"
             Stream := "stdout" }] ∧
    GetContainerLogs timeParse (.ok (lit "2024-01-01T00:00:00Z some message")) ≠
      .ok [{ Timestamp := LogTime.parsed
               { year := 2024, month := 1, day := 1, hour := 0, minute := 0, second := 0
                 nanosecond := 0, offset := 0 }
             Message := lit "some message", Stream := "stdout" }] := by
  have h : GetContainerLogs timeParse (.ok (lit "2024-01-01T00:00:00Z some message")) =
      .ok [{ Timestamp := LogTime.wallClock, Message := lit "01T00:00:00Z some message"
             Stream := "stdout" }] := by rfl
  refine ⟨by rfl, h, ?_⟩
  rw [h]
  intro e
  injection e with e
  injection e with e _
  injection e with e _
  cases e

/-- Claim C6 as amended. A line made of an 8-byte header, a token without
space that contains `T` and `Z` or `+` and that the parser accepts as the time
`t`, one space and a message `m` that is not all white space (no line feed
anywhere) yields exactly one entry, whose time is `t` and whose message is `m`
trimmed. -/
theorem GetContainerLogs_framed_timestamp_line (parse : Layout → Str → Option Instant)
    (header tok m : Str) (t : Instant)
    (hh : header.length = 8) (hhn : 10 ∉ header) (htn : 10 ∉ tok) (hmn : 10 ∉ m)
    (hsp : 32 ∉ tok) (hT : 84 ∈ tok) (hZ : 90 ∈ tok ∨ 43 ∈ tok)
    (hp : parse Layout.RFC3339Nano tok = some t ∨
      (parse Layout.RFC3339Nano tok = none ∧ parse Layout.RFC3339 tok = some t))
    (hm : ¬ AllSpace m) :
    GetContainerLogs parse (.ok (header ++ (tok ++ 32 :: m))) =
      .ok [{ Timestamp := LogTime.parsed t, Message := TrimSpace m
             Stream := if header.head? = some 2 then "stderr" else "stdout" }] := by
  have hnl : 10 ∉ header ++ (tok ++ 32 :: m) := by
    simp [hhn, htn, hmn]
  have h8 : 8 ≤ (header ++ (tok ++ 32 :: m)).length := by simp [hh]
  have hdrop : (header ++ (tok ++ 32 :: m)).drop 8 = tok ++ 32 :: m := by
    rw [← hh]; simp
  have hhead : (header ++ (tok ++ 32 :: m)).head? = header.head? := by
    rcases header with _ | ⟨a, r⟩
    · simp at hh
    · simp
  have hsplit := splitHeader_long _ h8
  rw [hdrop, hhead] at hsplit
  have htrim : TrimSpace m ≠ [] := fun h => hm ((TrimSpace_eq_nil_iff _).mp h)
  have hlen : (header ++ (tok ++ 32 :: m)).length ≠ 0 := by omega
  have hproc : processLine parse (header ++ (tok ++ 32 :: m)) =
      some { Timestamp := LogTime.parsed t, Message := TrimSpace m
             Stream := if header.head? = some 2 then "stderr" else "stdout" } := by
    unfold processLine
    rw [if_neg hlen]
    simp only [hsplit, extractTimestamp_of_some parse tok m t hsp hT hZ hp]
    simp [htrim]
  rw [GetContainerLogs_ok, Split_of_no_newline _ hnl]
  simp [hproc]

/-- Witness for claim C6 as amended: the line `2024-01-01T00:00:00Z some message`
behind an 8-byte `stdout` header. -/
theorem GetContainerLogs_framed_timestamp_line_witness :
    GetContainerLogs timeParse
        (.ok ([1, 0, 0, 0, 0, 0, 0, 34] ++ (lit "2024-01-01T00:00:00Z" ++ 32 :: lit "some message"))) =
      .ok [{ Timestamp := LogTime.parsed
               { year := 2024, month := 1, day := 1, hour := 0, minute := 0, second := 0
                 nanosecond := 0, offset := 0 }
             Message := lit "some message", Stream := "stdout" }] :=
  GetContainerLogs_framed_timestamp_line timeParse [1, 0, 0, 0, 0, 0, 0, 34]
    (lit "2024-01-01T00:00:00Z") (lit "some message") _
    (by decide) (by decide) (by decide) (by decide) (by decide) (by decide) (by decide)
    (Or.inl (by rfl)) (not_AllSpace_of_TrimSpace (by decide))

theorem splitHeader_stream (line : Str) :
    (splitHeader line).1 = "stdout" ∨ (splitHeader line).1 = "stderr" := by
  unfold splitHeader
  split
  · dsimp only
    split <;> simp
  · simp

theorem processLine_some (parse : Layout → Str → Option Instant) (line : Str) (e : LogEntry)
    (h : processLine parse line = some e) :
    e.Message = TrimSpace (strippedMessage parse line) ∧ e.Message ≠ [] ∧
      e.Stream = (splitHeader line).1 := by
  unfold processLine at h
  split at h
  · cases h
  · dsimp only at h
    split at h
    · rename_i hne
      injection h with h
      subst h
      exact ⟨rfl, hne, rfl⟩
    · cases h

theorem processLine_blank (parse : Layout → Str → Option Instant) (line : Str)
    (h : AllSpace (strippedMessage parse line)) : processLine parse line = none := by
  have ht : TrimSpace (extractTimestamp parse (splitHeader line).2).2 = [] :=
    (TrimSpace_eq_nil_iff _).mpr h
  unfold processLine
  split
  · rfl
  · simp [ht]

theorem processLine_nil (parse : Layout → Str → Option Instant) :
    processLine parse [] = none := by
  simp [processLine]

/-- Claim C9. Every entry returned for a content has a non-empty message that
neither starts nor ends with a white-space character, and a stream tag that is
`stdout` or `stderr`. A line whose message is all white space (or empty) once
the header and a parsed timestamp are removed yields no entry: the content
without that line gives the same entries. -/
theorem GetContainerLogs_entries_well_formed (parse : Layout → Str → Option Instant)
    (content : Str) :
    ∃ entries, GetContainerLogs parse (.ok content) = .ok entries ∧
      (∀ e ∈ entries, e.Message ≠ [] ∧ leadingSpace e.Message = 0 ∧
        trailingSpace e.Message = 0 ∧ (e.Stream = "stdout" ∨ e.Stream = "stderr")) ∧
      (∀ line ∈ Split content, AllSpace (strippedMessage parse line) →
        processLine parse line = none) ∧
      (∀ before line after : Str, content = before ++ 10 :: (line ++ 10 :: after) →
        10 ∉ line → AllSpace (strippedMessage parse line) →
        GetContainerLogs parse (.ok (before ++ 10 :: after)) = .ok entries) := by
  refine ⟨_, GetContainerLogs_ok parse content, ?_, ?_, ?_⟩
  · intro e he
    obtain ⟨line, -, hl⟩ := List.mem_filterMap.mp he
    obtain ⟨h1, h2, h3⟩ := processLine_some parse line e hl
    refine ⟨h2, ?_, ?_, ?_⟩
    · rw [h1]; exact leadingSpace_TrimSpace _
    · rw [h1]; exact trailingSpace_TrimSpace _
    · rw [h3]; exact splitHeader_stream line
  · intro line _ h
    exact processLine_blank parse line h
  · intro before line after hc hnl hb
    subst hc
    rw [GetContainerLogs_ok, Split_append, Split_append, Split_append,
      Split_of_no_newline line hnl]
    simp [processLine_blank parse line hb]

/-- Claim C10. The stream and message pairs obtained from `a`, a line feed and
`b` are those obtained from `a` followed by those obtained from `b`. The pairs
of a content are the pairs of its lines taken in order, each line giving at
most one, and there are no more entries than non-empty lines. -/
theorem GetContainerLogs_line_by_line (parse : Layout → Str → Option Instant) (a b : Str) :
    ∃ ea eb eab, GetContainerLogs parse (.ok a) = .ok ea ∧
      GetContainerLogs parse (.ok b) = .ok eb ∧
      GetContainerLogs parse (.ok (a ++ 10 :: b)) = .ok eab ∧
      eab.map streamMessage = ea.map streamMessage ++ eb.map streamMessage ∧
      ea.map streamMessage =
        (Split a).filterMap (fun line => (processLine parse line).map streamMessage) ∧
      ea.length ≤ ((Split a).filter (fun line => line ≠ [])).length := by
  refine ⟨_, _, _, GetContainerLogs_ok parse a, GetContainerLogs_ok parse b,
    GetContainerLogs_ok parse _, ?_, ?_, ?_⟩
  · rw [Split_append, List.filterMap_append, List.map_append]
  · rw [List.map_filterMap]
  · have hsub : (Split a).filterMap (processLine parse) =
        ((Split a).filter (fun line => line ≠ [])).filterMap (processLine parse) := by
      induction Split a with
      | nil => rfl
      | cons l ls ih =>
        by_cases hl : l = []
        · subst hl
          simp [processLine_nil, ih]
        · simp only [List.filter_cons, hl, ne_eq, not_false_eq_true, decide_True, if_true,
            List.filterMap_cons]
          rw [ih]
    rw [hsub]
    exact List.length_filterMap_le _ _

theorem Split_prefix (x p p1 : Str) (rest : List Str) (hx : 10 ∉ x)
    (hp : Split p = p1 :: rest) : Split (x ++ p) = (x ++ p1) :: rest := by
  induction x with
  | nil => simpa using hp
  | cons c cs ih =>
    have hc : c ≠ 10 := fun e => hx (by simp [e])
    have hcs : 10 ∉ cs := fun e => hx (by simp [e])
    simp [Split, hc, ih hcs]

theorem processLine_framed (parse : Layout → Str → Option Instant) (header payload : Str)
    (hh : header.length = 8) :
    processLine parse (header ++ payload) =
      if TrimSpace (extractTimestamp parse payload).2 ≠ [] then
        some { Timestamp := (extractTimestamp parse payload).1
               Message := TrimSpace (extractTimestamp parse payload).2
               Stream := if header.head? = some 2 then "stderr" else "stdout" }
      else none := by
  have h8 : 8 ≤ (header ++ payload).length := by simp [hh]
  have hdrop : (header ++ payload).drop 8 = payload := by
    rw [← hh]; simp
  have hhead : (header ++ payload).head? = header.head? := by
    rcases header with _ | ⟨a, r⟩
    · simp at hh
    · simp
  have hsplit := splitHeader_long _ h8
  rw [hdrop, hhead] at hsplit
  have hlen : (header ++ payload).length ≠ 0 := by omega
  unfold processLine
  rw [if_neg hlen]
  simp only [hsplit]

theorem GetContainerLogs_framed (parse : Layout → Str → Option Instant)
    (header p p1 : Str) (rest : List Str) (hh : header.length = 8) (hn : 10 ∉ header)
    (hp : Split p = p1 :: rest) :
    GetContainerLogs parse (.ok (header ++ p)) =
      .ok ((if TrimSpace (extractTimestamp parse p1).2 ≠ [] then
          [{ Timestamp := (extractTimestamp parse p1).1
             Message := TrimSpace (extractTimestamp parse p1).2
             Stream := if header.head? = some 2 then "stderr" else "stdout" }]
        else []) ++ rest.filterMap (processLine parse)) := by
  rw [GetContainerLogs_ok, Split_prefix header p p1 rest hn hp, List.filterMap_cons,
    processLine_framed parse header p1 hh]
  by_cases ht : TrimSpace (extractTimestamp parse p1).2 = []
  · simp [ht]
  · simp [ht]

/-- Claim C12, counterexample. The line `hello world` has no line feed, is not
blank and has no leading timestamp, yet its entry has the message `rld`: the
first 8 of its 11 bytes are removed as a header. -/
theorem GetContainerLogs_unframed_long_line :
    10 ∉ lit "hello world" ∧ TrimSpace (lit "hello world") = lit "hello world" ∧
    NoLeadingTimestamp timeParse (lit "hello world") ∧
    GetContainerLogs timeParse (.ok (lit "hello world")) =
      .ok [{ Timestamp := LogTime.wallClock, Message := lit "rld", Stream := "stdout" }] ∧
    lit "rld" ≠ lit "hello world" := by
  refine ⟨by decide, by decide, NoLeadingTimestamp_short _ (by decide), by rfl, by decide⟩

/-- Claim C12 as amended. A non-empty line without a line feed is read as a
payload: the whole line when it has fewer than 8 bytes, the line without its
first 8 bytes otherwise. When that payload is not blank and has no leading
timestamp the parser accepts, the line yields one entry whose message is the
trimmed payload. -/
theorem GetContainerLogs_line_without_timestamp (parse : Layout → Str → Option Instant)
    (line : Str) (hne : line ≠ []) (hnl : 10 ∉ line)
    (hns : ¬ AllSpace (if line.length < 8 then line else line.drop 8))
    (hts : NoLeadingTimestamp parse (if line.length < 8 then line else line.drop 8)) :
    GetContainerLogs parse (.ok line) =
      .ok [{ Timestamp := LogTime.wallClock
             Message := TrimSpace (if line.length < 8 then line else line.drop 8)
             Stream := if 8 ≤ line.length ∧ line.head? = some 2 then "stderr" else "stdout" }] := by
  rw [GetContainerLogs_ok, Split_of_no_newline line hnl]
  by_cases h : line.length < 8
  · rw [if_pos h] at hns hts
    have hh := splitHeader_short line (by omega)
    have hp := processLine_of_none parse line hne (by rw [hh]; exact hns) (by rw [hh]; exact hts)
    have h8 : ¬ 8 ≤ line.length := by omega
    simp [hp, hh, h, h8]
  · rw [if_neg h] at hns hts
    have h8 : 8 ≤ line.length := by omega
    have hh := splitHeader_long line h8
    have hp := processLine_of_none parse line hne (by rw [hh]; exact hns) (by rw [hh]; exact hts)
    simp [hp, hh, h, h8]

/-- Witness for claim C12 as amended: a short line keeps all its bytes, a line
of 12 bytes loses the first 8. -/
theorem GetContainerLogs_line_without_timestamp_witness :
    GetContainerLogs timeParse (.ok (lit " hi ")) =
      .ok [{ Timestamp := LogTime.wallClock, Message := lit "hi", Stream := "stdout" }] ∧
    GetContainerLogs timeParse (.ok (lit "hello world ")) =
      .ok [{ Timestamp := LogTime.wallClock, Message := lit "rld", Stream := "stdout" }] :=
  ⟨GetContainerLogs_line_without_timestamp timeParse (lit " hi ") (by decide) (by decide)
      (not_AllSpace_of_TrimSpace (by decide)) (NoLeadingTimestamp_short _ (by decide)),
    GetContainerLogs_line_without_timestamp timeParse (lit "hello world ") (by decide)
      (by decide) (not_AllSpace_of_TrimSpace (by decide))
      (NoLeadingTimestamp_short _ (by decide))⟩

/-- Claim C13, counterexample. Behind an 8-byte header, a timestamp the parser
accepts that is followed by a tab, or preceded by a space, is not removed: the
message is cut at its first space only, the piece before it is not a
timestamp, and the entry keeps the whole payload with the time of
processing. -/
theorem GetContainerLogs_tab_delimited_timestamp :
    timeParse Layout.RFC3339Nano (lit "2024-01-01T00:00:00Z") =
      some { year := 2024, month := 1, day := 1, hour := 0, minute := 0, second := 0
             nanosecond := 0, offset := 0 } ∧
    GetContainerLogs timeParse
        (.ok ([1, 0, 0, 0, 0, 0, 0, 33] ++ lit "2024-01-01T00:00:00Z\tsome message")) =
      .ok [{ Timestamp := LogTime.wallClock
             Message := lit "2024-01-01T00:00:00Z\tsome message", Stream := "stdout" }] ∧
    GetContainerLogs timeParse
        (.ok ([1, 0, 0, 0, 0, 0, 0, 34] ++ lit " 2024-01-01T00:00:00Z some message")) =
      .ok [{ Timestamp := LogTime.wallClock
             Message := lit "2024-01-01T00:00:00Z some message", Stream := "stdout" }] ∧
    lit "2024-01-01T00:00:00Z\tsome message" ≠ lit "some message" ∧
    lit "2024-01-01T00:00:00Z some message" ≠ lit "some message" := by
  refine ⟨by rfl, by rfl, by rfl, by decide, by decide⟩

/-- Claim C13 as amended. For a line made of 8 header bytes and a payload (no
line feed anywhere): when the payload starts with a token that ends at the
first space, contains `T` and `Z` or `+` and is accepted by the parser as the
time `t`, and what follows the space is not blank, the entry has the time `t`
and what follows the space, trimmed, as message; when the piece before the
first space is absent or rejected and the payload is not blank, the message is
the whole trimmed payload. -/
theorem GetContainerLogs_framed_payload (parse : Layout → Str → Option Instant)
    (header payload : Str) (hh : header.length = 8) (hhn : 10 ∉ header)
    (hpn : 10 ∉ payload) :
    (∀ (tok m : Str) (t : Instant), payload = tok ++ 32 :: m → 32 ∉ tok → 84 ∈ tok →
      (90 ∈ tok ∨ 43 ∈ tok) →
      (parse Layout.RFC3339Nano tok = some t ∨
        (parse Layout.RFC3339Nano tok = none ∧ parse Layout.RFC3339 tok = some t)) →
      ¬ AllSpace m →
      GetContainerLogs parse (.ok (header ++ payload)) =
        .ok [{ Timestamp := LogTime.parsed t, Message := TrimSpace m
               Stream := if header.head? = some 2 then "stderr" else "stdout" }]) ∧
    (NoLeadingTimestamp parse payload → ¬ AllSpace payload →
      GetContainerLogs parse (.ok (header ++ payload)) =
        .ok [{ Timestamp := LogTime.wallClock, Message := TrimSpace payload
               Stream := if header.head? = some 2 then "stderr" else "stdout" }]) := by
  have key := GetContainerLogs_framed parse header payload payload [] hh hhn
    (Split_of_no_newline payload hpn)
  constructor
  · intro tok m t hp hsp hT hZ hacc hm
    have htrim : TrimSpace m ≠ [] := fun h => hm ((TrimSpace_eq_nil_iff _).mp h)
    rw [key, hp, extractTimestamp_of_some parse tok m t hsp hT hZ hacc]
    simp [htrim]
  · intro hts hns
    have htrim : TrimSpace payload ≠ [] := fun h => hns ((TrimSpace_eq_nil_iff _).mp h)
    rw [key, extractTimestamp_of_none parse payload hts]
    simp [htrim]

/-- Witness for claim C13 as amended: a token with a fraction of a second and a
`+` offset is removed, a payload without timestamp is kept whole. -/
theorem GetContainerLogs_framed_payload_witness :
    GetContainerLogs timeParse
        (.ok ([2, 0, 0, 0, 0, 0, 0, 42] ++
          (lit "2024-01-01T00:00:00.5+01:00" ++ 32 :: lit " some message"))) =
      .ok [{ Timestamp := LogTime.parsed
               { year := 2024, month := 1, day := 1, hour := 0, minute := 0, second := 0
                 nanosecond := 500000000, offset := 3600 }
             Message := lit "some message", Stream := "stderr" }] ∧
    GetContainerLogs timeParse (.ok ([2, 0, 0, 0, 0, 0, 0, 14] ++ lit "not a time Z")) =
      .ok [{ Timestamp := LogTime.wallClock, Message := lit "not a time Z"
             Stream := "stderr" }] :=
  ⟨(GetContainerLogs_framed_payload timeParse [2, 0, 0, 0, 0, 0, 0, 42]
      (lit "2024-01-01T00:00:00.5+01:00" ++ 32 :: lit " some message")
      (by decide) (by decide) (by decide)).1
      (lit "2024-01-01T00:00:00.5+01:00") (lit " some message") _ rfl (by decide) (by decide)
      (by decide) (Or.inl (by rfl)) (not_AllSpace_of_TrimSpace (by decide)),
    (GetContainerLogs_framed_payload timeParse [2, 0, 0, 0, 0, 0, 0, 14] (lit "not a time Z")
      (by decide) (by decide) (by decide)).2
      (by
        intro tok rest e hsp
        have hl : tok.length < 12 := by
          have := congrArg List.length e
          simp at this
          have h12 : (lit "not a time Z").length = 12 := by decide
          omega
        exact ⟨timeParse_short _ _ hl, timeParse_short _ _ hl⟩)
      (not_AllSpace_of_TrimSpace (by decide))⟩

/-! ## Theorems: counts, totals, names and conversions -/

/-- Claim C14, the code at the failing input. For the listing of an exited and
a running container the claim gives running 1, stopped 1, total 2 and paused
0, and that is the reply when the probe of the running container fails. When
that probe succeeds with a memory limit of `0`, the memory percent of its
record is not-a-number, the body cannot be encoded and no count at all is
reported. -/
theorem GetOverallMetrics_zero_limit_drops_counts :
    (∃ body,
      GetOverallMetrics
          (.ok [containerOf "c0" [lit "/db"] "exited", containerOf "c1" [lit "/web"] "running"])
          (fun _ => failingRuntime) 0 0 = .json 200 body ∧
        body.TotalContainers = 2 ∧ body.RunningContainers = 1 ∧
        body.StoppedContainers = 1 ∧ body.PausedContainers = 0) ∧
    GetOverallMetrics
        (.ok [containerOf "c0" [lit "/db"] "exited", containerOf "c1" [lit "/web"] "running"])
        (fun _ => zeroLimitRuntime) 0 0 =
      .unencoded 200 := by
  constructor
  · obtain ⟨body, hb, -, h1, h2, h3, h4⟩ :=
      GetOverallMetrics_json
        [containerOf "c0" [lit "/db"] "exited", containerOf "c1" [lit "/web"] "running"]
        (fun _ => failingRuntime) 0 0
        (by intro i c _ _ s hs; simp [failingRuntime] at hs)
    exact ⟨body, hb, h1, by rw [h2]; decide, by rw [h3]; decide, by rw [h4]; decide⟩
  · obtain ⟨body, hb, hc, -⟩ :=
      GetOverallMetrics_body
        [containerOf "c0" [lit "/db"] "exited", containerOf "c1" [lit "/web"] "running"]
        (fun _ => zeroLimitRuntime) 0 0
    rw [hb]
    apply cJSON_of_not_encodable
    have hc' : body.Containers =
        [buildContainerMetrics zeroLimitRuntime (containerOf "c0" [lit "/db"] "exited"),
          buildContainerMetrics zeroLimitRuntime (containerOf "c1" [lit "/web"] "running")] := by
      rw [hc]; rfl
    simp [OverallMetrics.encodable, hc',
      zero_limit_record_not_encodable (containerOf "c1" [lit "/web"] "running") rfl]

/-- Claim C17. `getContainerName` returns `Unknown` for an empty list of names;
for a first name `/` followed by `s` it returns `s`, and a first name that does
not start with `/` is returned unchanged; the other names are ignored. -/
theorem getContainerName_spec :
    getContainerName [] = lit "Unknown" ∧
    (∀ (s : Str) (others : List Str), getContainerName ((47 :: s) :: others) = s) ∧
    (∀ (name : Str) (others : List Str), name.head? ≠ some 47 →
      getContainerName (name :: others) = name) := by
  refine ⟨rfl, fun s others => rfl, ?_⟩
  intro name others h
  rcases name with _ | ⟨a, t⟩
  · rfl
  · have ha : a ≠ 47 := by simpa using h
    show (match a :: t with
      | 47 :: rest => rest
      | _ => a :: t) = a :: t
    split
    · rename_i heq
      simp at heq
      exact absurd heq.1 ha
    · rfl

/-- Witness for claim C17: the names `/web` and `web`, each followed by another
name, both give `web`. -/
theorem getContainerName_spec_witness :
    getContainerName [lit "/web", lit "/alias"] = lit "web" ∧
    getContainerName [lit "web", lit "/alias"] = lit "web" :=
  ⟨getContainerName_spec.2.1 (lit "web") [lit "/alias"],
    getContainerName_spec.2.2 (lit "web") [lit "/alias"] (by decide)⟩

theorem add64_mod_left (a b : Nat) : add64 (a % 2 ^ 64) b = add64 a b := by
  unfold add64
  rw [Nat.add_mod, Nat.mod_mod, ← Nat.add_mod]

theorem blkio_foldl (entries : List BlkioStatEntry) :
    ∀ r w : Nat,
      List.foldl
        (fun (acc : BlockIo) (blkio : BlkioStatEntry) =>
          if blkio.Op = "Read" then { acc with ReadBytes := add64 acc.ReadBytes blkio.Value }
          else if blkio.Op = "Write" then
            { acc with WriteBytes := add64 acc.WriteBytes blkio.Value }
          else acc)
        { ReadBytes := r % 2 ^ 64, WriteBytes := w % 2 ^ 64 } entries =
      { ReadBytes := (r + taggedSum "Read" entries) % 2 ^ 64
        WriteBytes := (w + taggedSum "Write" entries) % 2 ^ 64 } := by
  induction entries with
  | nil => intro r w; simp [taggedSum]
  | cons e es ih =>
    intro r w
    rw [List.foldl_cons]
    by_cases h1 : e.Op = "Read"
    · have hrw : ¬ (("Read" : String) = "Write") := by decide
      simp only [h1, if_true, add64_mod_left]
      rw [show add64 r e.Value = (r + e.Value) % 2 ^ 64 from rfl, ih]
      simp [taggedSum, h1, hrw, Nat.add_assoc]
    · by_cases h2 : e.Op = "Write"
      · have hwr : ¬ (("Write" : String) = "Read") := by decide
        simp only [h2, hwr, if_true, if_false, add64_mod_left]
        rw [show add64 w e.Value = (w + e.Value) % 2 ^ 64 from rfl, ih]
        simp [taggedSum, h2, hwr, Nat.add_assoc]
      · simp only [h1, h2, if_false]
        rw [ih]
        simp [taggedSum, h1, h2]

theorem sumBlkio_eq (entries : List BlkioStatEntry) :
    sumBlkio entries =
      { ReadBytes := taggedSum "Read" entries % 2 ^ 64
        WriteBytes := taggedSum "Write" entries % 2 ^ 64 } := by
  have h := blkio_foldl entries 0 0
  simp only [Nat.zero_mod, Nat.zero_add] at h
  exact h

theorem taggedSum_insert (op : String) (before after : List BlkioStatEntry)
    (e : BlkioStatEntry) (h : e.Op ≠ op) :
    taggedSum op (before ++ e :: after) = taggedSum op (before ++ after) := by
  simp [taggedSum, List.filter_cons, h]

/-- Claim C15. The read total of the statistics is the sum, modulo `2 ^ 64`, of
the values of the block-IO entries tagged `Read`, the write total that of the
entries tagged `Write`; taking away an entry with any other tag (also one that
differs by case only) changes neither total. -/
theorem GetContainerStats_block_io (now : Int) (id : String) (s : StatsJSON) :
    ∃ st, GetContainerStats now id (.ok s) = .ok st ∧
      st.BlockIo.ReadBytes = taggedSum "Read" s.BlkioStats.IoServiceBytesRecursive % 2 ^ 64 ∧
      st.BlockIo.WriteBytes = taggedSum "Write" s.BlkioStats.IoServiceBytesRecursive % 2 ^ 64 ∧
      (∀ (before after : List BlkioStatEntry) (e : BlkioStatEntry),
        s.BlkioStats.IoServiceBytesRecursive = before ++ e :: after →
        e.Op ≠ "Read" → e.Op ≠ "Write" →
        ∃ st', GetContainerStats now id
            (.ok { s with BlkioStats := { IoServiceBytesRecursive := before ++ after } }) =
              .ok st' ∧
          st'.BlockIo.ReadBytes = st.BlockIo.ReadBytes ∧
          st'.BlockIo.WriteBytes = st.BlockIo.WriteBytes) := by
  refine ⟨_, rfl, ?_, ?_, ?_⟩
  · simp [sumBlkio_eq]
  · simp [sumBlkio_eq]
  · intro before after e he h1 h2
    refine ⟨_, rfl, ?_, ?_⟩
    · simp [sumBlkio_eq, he, taggedSum_insert _ _ _ _ h1]
    · simp [sumBlkio_eq, he, taggedSum_insert _ _ _ _ h2]

/-- Witness for claim C15: two `Read` entries whose sum wraps around, one `Write`
entry and the ignored tags `read` and `Sync`. -/
theorem GetContainerStats_block_io_witness :
    ∃ st,
      GetContainerStats 0 "c1"
          (.ok (ioSnapshot []
            [⟨"Read", 2 ^ 64 - 1⟩, ⟨"read", 7⟩, ⟨"Write", 5⟩, ⟨"Read", 3⟩, ⟨"Sync", 9⟩])) =
        .ok st ∧
      st.BlockIo.ReadBytes = 2 ∧ st.BlockIo.WriteBytes = 5 := by
  obtain ⟨st, hst, hr, hw, -⟩ :=
    GetContainerStats_block_io 0 "c1"
      (ioSnapshot []
        [⟨"Read", 2 ^ 64 - 1⟩, ⟨"read", 7⟩, ⟨"Write", 5⟩, ⟨"Read", 3⟩, ⟨"Sync", 9⟩])
  exact ⟨st, hst, by rw [hr]; decide, by rw [hw]; decide⟩

theorem networks_foldl (nets : List (String × NetworkStats)) :
    ∀ a b c d : Nat,
      List.foldl
        (fun (acc : Network) (kv : String × NetworkStats) =>
          ({ RxBytes := add64 acc.RxBytes kv.2.RxBytes
             TxBytes := add64 acc.TxBytes kv.2.TxBytes
             RxPackets := add64 acc.RxPackets kv.2.RxPackets
             TxPackets := add64 acc.TxPackets kv.2.TxPackets } : Network))
        { RxBytes := a % 2 ^ 64, TxBytes := b % 2 ^ 64, RxPackets := c % 2 ^ 64
          TxPackets := d % 2 ^ 64 } nets =
      { RxBytes := (a + (nets.map (fun kv => kv.2.RxBytes)).sum) % 2 ^ 64
        TxBytes := (b + (nets.map (fun kv => kv.2.TxBytes)).sum) % 2 ^ 64
        RxPackets := (c + (nets.map (fun kv => kv.2.RxPackets)).sum) % 2 ^ 64
        TxPackets := (d + (nets.map (fun kv => kv.2.TxPackets)).sum) % 2 ^ 64 } := by
  induction nets with
  | nil => intro a b c d; simp
  | cons kv rest ih =>
    intro a b c d
    rw [List.foldl_cons]
    simp only [add64_mod_left]
    simp only [add64] at ih ⊢
    rw [ih]
    simp [Nat.add_assoc]

theorem sumNetworks_eq (nets : List (String × NetworkStats)) :
    sumNetworks nets =
      { RxBytes := (nets.map (fun kv => kv.2.RxBytes)).sum % 2 ^ 64
        TxBytes := (nets.map (fun kv => kv.2.TxBytes)).sum % 2 ^ 64
        RxPackets := (nets.map (fun kv => kv.2.RxPackets)).sum % 2 ^ 64
        TxPackets := (nets.map (fun kv => kv.2.TxPackets)).sum % 2 ^ 64 } := by
  have h := networks_foldl nets 0 0 0 0
  simp only [Nat.zero_mod, Nat.zero_add] at h
  exact h

/-- Claim C16. The received and sent bytes and packets of the statistics are the
sums, modulo `2 ^ 64`, of the counters of all network interfaces; visiting the
interfaces in another order gives the same four totals, and without interface
all four are `0`. -/
theorem GetContainerStats_network_totals (now : Int) (id : String) (s : StatsJSON) :
    ∃ st, GetContainerStats now id (.ok s) = .ok st ∧
      st.Network.RxBytes = (s.Networks.map (fun kv => kv.2.RxBytes)).sum % 2 ^ 64 ∧
      st.Network.TxBytes = (s.Networks.map (fun kv => kv.2.TxBytes)).sum % 2 ^ 64 ∧
      st.Network.RxPackets = (s.Networks.map (fun kv => kv.2.RxPackets)).sum % 2 ^ 64 ∧
      st.Network.TxPackets = (s.Networks.map (fun kv => kv.2.TxPackets)).sum % 2 ^ 64 ∧
      (∀ visited : List (String × NetworkStats), visited.Perm s.Networks →
        ∃ st', GetContainerStats now id (.ok { s with Networks := visited }) = .ok st' ∧
          st'.Network = st.Network) ∧
      (s.Networks = [] →
        st.Network = { RxBytes := 0, TxBytes := 0, RxPackets := 0, TxPackets := 0 }) := by
  refine ⟨_, rfl, ?_, ?_, ?_, ?_, ?_, ?_⟩
  · simp [sumNetworks_eq]
  · simp [sumNetworks_eq]
  · simp [sumNetworks_eq]
  · simp [sumNetworks_eq]
  · intro visited hp
    refine ⟨_, rfl, ?_⟩
    simp only [sumNetworks_eq]
    rw [(hp.map _).sum_eq, (hp.map _).sum_eq, (hp.map _).sum_eq, (hp.map _).sum_eq]
  · intro he
    simp [he, sumNetworks]

/-- Witness for claim C16: two interfaces, the received bytes wrapping around;
both orders give the same totals. -/
theorem GetContainerStats_network_totals_witness :
    ∃ st,
      GetContainerStats 0 "c1"
          (.ok (ioSnapshot [("eth0", ⟨2 ^ 64 - 1, 10, 1, 2⟩), ("eth1", ⟨3, 20, 4, 5⟩)] [])) =
        .ok st ∧
      st.Network = { RxBytes := 2, TxBytes := 30, RxPackets := 5, TxPackets := 7 } ∧
      ∃ st',
        GetContainerStats 0 "c1"
            (.ok (ioSnapshot [("eth1", ⟨3, 20, 4, 5⟩), ("eth0", ⟨2 ^ 64 - 1, 10, 1, 2⟩)] [])) =
          .ok st' ∧ st'.Network = st.Network := by
  obtain ⟨st, hst, h1, h2, h3, h4, hperm, -⟩ :=
    GetContainerStats_network_totals 0 "c1"
      (ioSnapshot [("eth0", ⟨2 ^ 64 - 1, 10, 1, 2⟩), ("eth1", ⟨3, 20, 4, 5⟩)] [])
  refine ⟨st, hst, ?_, ?_⟩
  · rcases hn : st.Network with ⟨a, b, c, d⟩
    rw [hn] at h1 h2 h3 h4
    simp only at h1 h2 h3 h4
    rw [h1, h2, h3, h4]
    rfl
  · exact hperm [("eth1", ⟨3, 20, 4, 5⟩), ("eth0", ⟨2 ^ 64 - 1, 10, 1, 2⟩)]
      (List.Perm.swap _ _ _)

theorem toInt64_of_lt (n : Nat) (h : n < 2 ^ 63) : toInt64 n = (n : Int) := by
  have h64 : n % 2 ^ 64 = n := Nat.mod_eq_of_lt (by omega)
  unfold toInt64
  rw [h64, if_pos h]

/-- Claim C19. `buildContainerMetricsFromStats` copies the CPU usage and the
memory percent. When the memory usage, the received bytes, the sent bytes and
the sum of read and written bytes are each below `2 ^ 63`, the memory usage and
the two network figures of the record are those counters, the disk usage is
the exact sum of read and written bytes, and all four are non-negative. In
general the disk usage is that sum modulo `2 ^ 64` read in two's complement. -/
theorem buildContainerMetricsFromStats_conversions (container : Container)
    (stats : ContainerStats) :
    (buildContainerMetricsFromStats container stats).CPUUsage = stats.CPUUsage ∧
    (buildContainerMetricsFromStats container stats).MemoryPercent = stats.Memory.Percent ∧
    (stats.Memory.Usage < 2 ^ 63 → stats.Network.RxBytes < 2 ^ 63 →
      stats.Network.TxBytes < 2 ^ 63 →
      stats.BlockIo.ReadBytes + stats.BlockIo.WriteBytes < 2 ^ 63 →
      (buildContainerMetricsFromStats container stats).MemoryUsage = (stats.Memory.Usage : Int) ∧
      (buildContainerMetricsFromStats container stats).NetworkRx =
        (stats.Network.RxBytes : Int) ∧
      (buildContainerMetricsFromStats container stats).NetworkTx =
        (stats.Network.TxBytes : Int) ∧
      (buildContainerMetricsFromStats container stats).DiskUsage =
        (stats.BlockIo.ReadBytes : Int) + (stats.BlockIo.WriteBytes : Int) ∧
      0 ≤ (buildContainerMetricsFromStats container stats).MemoryUsage ∧
      0 ≤ (buildContainerMetricsFromStats container stats).NetworkRx ∧
      0 ≤ (buildContainerMetricsFromStats container stats).NetworkTx ∧
      0 ≤ (buildContainerMetricsFromStats container stats).DiskUsage) ∧
    (buildContainerMetricsFromStats container stats).DiskUsage =
      (if (stats.BlockIo.ReadBytes + stats.BlockIo.WriteBytes) % 2 ^ 64 < 2 ^ 63 then
        (((stats.BlockIo.ReadBytes + stats.BlockIo.WriteBytes) % 2 ^ 64 : Nat) : Int)
      else
        (((stats.BlockIo.ReadBytes + stats.BlockIo.WriteBytes) % 2 ^ 64 : Nat) : Int) - 2 ^ 64) := by
  refine ⟨rfl, rfl, ?_, ?_⟩
  · intro h1 h2 h3 h4
    have hd : add64 stats.BlockIo.ReadBytes stats.BlockIo.WriteBytes =
        stats.BlockIo.ReadBytes + stats.BlockIo.WriteBytes :=
      Nat.mod_eq_of_lt (by omega)
    have e1 : (buildContainerMetricsFromStats container stats).MemoryUsage =
        (stats.Memory.Usage : Int) := toInt64_of_lt _ h1
    have e2 : (buildContainerMetricsFromStats container stats).NetworkRx =
        (stats.Network.RxBytes : Int) := toInt64_of_lt _ h2
    have e3 : (buildContainerMetricsFromStats container stats).NetworkTx =
        (stats.Network.TxBytes : Int) := toInt64_of_lt _ h3
    have e4 : (buildContainerMetricsFromStats container stats).DiskUsage =
        (stats.BlockIo.ReadBytes : Int) + (stats.BlockIo.WriteBytes : Int) := by
      show toInt64 (add64 _ _) = _
      rw [hd, toInt64_of_lt _ h4]
      push_cast
      rfl
    refine ⟨e1, e2, e3, e4, ?_, ?_, ?_, ?_⟩
    · rw [e1]; exact Int.natCast_nonneg _
    · rw [e2]; exact Int.natCast_nonneg _
    · rw [e3]; exact Int.natCast_nonneg _
    · rw [e4]; exact Int.add_nonneg (Int.natCast_nonneg _) (Int.natCast_nonneg _)
  · show toInt64 (add64 _ _) = _
    unfold toInt64 add64
    rw [Nat.mod_mod]

/-- Witness for claim C19: small counters are copied and added exactly; `2 ^ 63`
read bytes give the disk usage `-2 ^ 63`. -/
theorem buildContainerMetricsFromStats_conversions_witness :
    (buildContainerMetricsFromStats (containerOf "c1" [lit "/web"] "running")
        (statsOf 1024 10 20 300 400)).MemoryUsage = 1024 ∧
    (buildContainerMetricsFromStats (containerOf "c1" [lit "/web"] "running")
        (statsOf 1024 10 20 300 400)).DiskUsage = 700 ∧
    (buildContainerMetricsFromStats (containerOf "c1" [lit "/web"] "running")
        (statsOf 0 0 0 (2 ^ 63) 0)).DiskUsage = -(2 ^ 63) := by
  have h := (buildContainerMetricsFromStats_conversions (containerOf "c1" [lit "/web"] "running")
    (statsOf 1024 10 20 300 400)).2.2.1 (by decide) (by decide) (by decide) (by decide)
  have g := (buildContainerMetricsFromStats_conversions (containerOf "c1" [lit "/web"] "running")
    (statsOf 0 0 0 (2 ^ 63) 0)).2.2.2
  refine ⟨h.1, h.2.2.2.1, ?_⟩
  rw [g]
  decide

/-! ## Theorems: the audit trail -/

/-- Claim C18. With the audit trail as an append-only list, each of the
handlers start, stop, restart and remove container and pull, remove and prune
image, once it has made its runtime call, leaves the earlier rows as they were
and adds exactly one row: its action is the action name when the call
succeeded, and the action name followed by `_failed`, with the error text as
details, when it failed. -/
theorem handlers_audit_once (db : List AuditLogRecord) (containerID : String) (force : Bool)
    (listing : Except String (List Container)) (imageName imageID : Str)
    (err : Option String) :
    AuditedOnce db (StartContainer db containerID listing err).1 "start" err ∧
    AuditedOnce db (StopContainer db containerID listing err).1 "stop" err ∧
    AuditedOnce db (RestartContainer db containerID listing err).1 "restart" err ∧
    AuditedOnce db (RemoveContainer db containerID force listing err).1 "remove" err ∧
    (imageName ≠ [] → AuditedOnce db (PullImage db (.ok imageName) err).1 "pull_image" err) ∧
    AuditedOnce db (RemoveImage db imageID err).1 "remove_image" err ∧
    AuditedOnce db (PruneImages db err).1 "prune_images" err := by
  refine ⟨?_, ?_, ?_, ?_, ?_, ?_, ?_⟩
  · cases err <;> exact ⟨_, rfl, by simp, by simp⟩
  · cases err <;> exact ⟨_, rfl, by simp, by simp⟩
  · cases err <;> exact ⟨_, rfl, by simp, by simp⟩
  · cases err <;> exact ⟨_, rfl, by simp, by simp⟩
  · intro hne
    cases err
    · exact ⟨_, by simp [PullImage, hne, LogContainerAction]; rfl, by simp, by simp⟩
    · exact ⟨_, by simp [PullImage, hne, LogContainerAction]; rfl, by simp, by simp⟩
  · cases err <;> exact ⟨_, rfl, by simp, by simp⟩
  · cases err <;> exact ⟨_, rfl, by simp, by simp⟩

/-- Witness for claim C18: a failed start after one earlier row, and a pull
that succeeds. -/
theorem handlers_audit_once_witness :
    (StartContainer [⟨"c0", lit "/db", "stop", "docker-gui", "Container stopped successfully"⟩]
        "c1" (.ok [containerOf "c1" [lit "/web"] "exited"]) (some "No such container")).1 =
      [⟨"c0", lit "/db", "stop", "docker-gui", "Container stopped successfully"⟩,
        ⟨"c1", lit "/web", "start_failed", "docker-gui", "No such container"⟩] ∧
    AuditedOnce [] (PullImage [] (.ok (lit "nginx")) none).1 "pull_image" none :=
  ⟨rfl,
    (handlers_audit_once [] "c1" false (.ok []) (lit "nginx") (lit "sha") none).2.2.2.2.1
      (by decide)⟩

end Doker
